import Mathlib

/-!
# lnetd: a shallow embedding of `lnetd.c`

`lnetd` listens on a UNIX-domain socket and starts one instance of a
configured program per connection.  This file embeds the functions of
`lnetd.c` as Lean definitions and proves properties of them.

Conventions.

* C `int` values are `Int`; `dev_t`, `ino_t`, `mode_t`, `uid_t`, `gid_t` are
  `Nat` (with `(uid_t)-1` written `NO_ID`).  The counter `num_kids` stays
  between 0 and `max_kids` on the executions considered, so it never leaves
  the range of `int`.
* A function that talks to the kernel receives the kernel's answers as
  arguments and returns the list of calls it made (`Call`) next to its result.
* `die_now`, the only global, is threaded explicitly.
-/

namespace Lnetd

/-! ## Constants of the C library -/

def LOG_ERR : Int := 3
def LOG_INFO : Int := 6
def LOG_DEBUG : Int := 7

def SIGHUP : Int := 1
def SIGALRM : Int := 14
def SIGTERM : Int := 15
def SIGCHLD : Int := 17

def WNOHANG : Int := 1

/-- The macro `CHECK_TIME`. -/
def CHECK_TIME : Nat := 1

/-- The value `(uid_t)-1` / `(gid_t)-1` of a 32-bit id type. -/
def NO_ID : Nat := 4294967295

/-! ## `struct lnetd_ctx` -/

/-- The record `struct lnetd_ctx`, field by field. -/
structure lnetd_ctx where
  progname : String
  num_kids : Int
  max_kids : Int
  wait_service : Int
  daemonise : Int
  debug : Int
  fd : Int
  sockfn : String
  sock_dev : Nat
  sock_ino : Nat
  sockmode : Nat
  sockuid : Nat
  sockgid : Nat
  kid_prognam : String
  kid_args : List String
deriving DecidableEq, Repr

/-- One call made by the program: a system call with its arguments and
return value, a line handed to the log, or the entry into `make_kid` /
`sighndler`. -/
inductive Call where
  | log (pri : Int) (fmt : String)
  | sighndler (sig : Int)
  | killpg (pgrp : Int) (sig : Int)
  | alarm (secs : Nat)
  | waitpid (pid : Int) (options : Int) (ret : Int)
  | select (nfds : Int) (ret : Int)
  | accept (fd : Int) (ret : Int)
  | make_kid (fd : Int)
  | fork (ret : Int)
  | sleep (secs : Nat)
  | stat (path : String) (ret : Int)
  | dup2 (oldfd : Int) (newfd : Int) (ret : Int)
  | close (fd : Int)
  | execv (path : String) (args : List String)
  | _exit (status : Int)
  | malloc (ok : Bool)
  | socket (ret : Int)
  | umask (mask : Nat)
  | bind (fd : Int) (path : String) (ret : Int)
  | chmod (path : String) (mode : Nat) (ret : Int)
  | chown (path : String) (uid : Nat) (gid : Nat) (ret : Int)
  | rename (old : String) (new : String) (ret : Int)
  | listen (fd : Int) (backlog : Int) (ret : Int)
  | perror (what : String)
deriving DecidableEq, Repr

/-! ## Logging -/

/-- The function `vlog`: a `LOG_DEBUG` line is dropped when a context is given
and its `debug` field is zero; every other line is written (stderr and
syslog), recorded here as one `Call.log`. -/
def vlog (ctx : Option lnetd_ctx) (pri : Int) (fmt : String) : List Call :=
  match ctx with
  | some c => if c.debug = 0 ∧ pri = LOG_DEBUG then [] else [Call.log pri fmt]
  | none => [Call.log pri fmt]

/-- The function `lnetd_log`. -/
def lnetd_log (ctx : lnetd_ctx) (pri : Int) (fmt : String) : List Call :=
  vlog (some ctx) pri fmt

/-! ## The signal handler -/

/-- The function `sighndler`, as a map on the global `die_now`: `SIGTERM` and
`SIGHUP` store 1, every other signal leaves the flag alone. -/
def sighndler (sig : Int) (die_now : Int) : Int :=
  if sig = SIGTERM ∨ sig = SIGHUP then 1 else die_now

/-! ## The descriptor table and `start_kid` -/

/-- A process's descriptor table: descriptor number to open file description. -/
abbrev FdTable := Int → Option Nat

/-- A descriptor is valid when it is non-negative and open. -/
def fd_open (t : FdTable) (fd : Int) : Bool :=
  decide (0 ≤ fd) && (t fd).isSome

/-- POSIX `dup2(oldfd, newfd)`: fails with -1 (`EBADF`) when `oldfd` is not a
valid open descriptor or `newfd` is negative, and changes nothing then;
otherwise `newfd` comes to name the description of `oldfd` and is returned. -/
def dup2 (t : FdTable) (oldfd newfd : Int) : Int × FdTable :=
  if fd_open t oldfd = true ∧ 0 ≤ newfd then
    (newfd, fun k => if k = newfd then t oldfd else t k)
  else (-1, t)

/-- POSIX `close(fd)` on the descriptor table. -/
def close (t : FdTable) (fd : Int) : FdTable :=
  fun k => if k = fd then none else t k

/-- How a run of `start_kid` ends: the calls it made, the descriptor table it
leaves, and whether `execv` replaced the image (`true`) or the child left
through `_exit(0)` (`false`).  `start_kid` never returns to its caller. -/
structure ChildRun where
  calls : List Call
  fds : FdTable
  execd : Bool

/-- The part of `start_kid` after the block `if (fd != 0) ...`: duplicate
descriptor 0 onto 1 and 2, log, `execv`; `c0` are the calls made so far. -/
def start_kid_exec (ctx : lnetd_ctx) (c0 : List Call) (t0 : FdTable) (exec_ok : Bool) :
    ChildRun :=
  let d1 := dup2 t0 0 1
  let d2 := dup2 d1.2 0 2
  let calls := c0 ++ [Call.dup2 0 1 d1.1, Call.dup2 0 2 d2.1]
                ++ lnetd_log ctx LOG_INFO "starting %s"
                ++ [Call.execv ctx.kid_prognam ctx.kid_args]
  if exec_ok = true then { calls := calls, fds := d2.2, execd := true }
  else
    { calls := calls ++ lnetd_log ctx LOG_ERR "execv failed: %s" ++ [Call._exit 0],
      fds := d2.2, execd := false }

/-- The function `start_kid(ctx, fd)`, run in the forked child with descriptor
table `t`; `exec_ok` tells whether `execv` succeeds. -/
def start_kid (ctx : lnetd_ctx) (fd : Int) (t : FdTable) (exec_ok : Bool) : ChildRun :=
  if fd ≠ 0 then
    let d := dup2 t fd 0
    if d.1 = -1 then
      { calls := [Call.dup2 fd 0 d.1] ++ lnetd_log ctx LOG_ERR "dup2 failed: %s"
                  ++ [Call._exit 0],
        fds := d.2, execd := false }
    else start_kid_exec ctx [Call.dup2 fd 0 d.1, Call.close fd] (close d.2 fd) exec_ok
  else start_kid_exec ctx [] t exec_ok

/-! ## `make_kid` -/

/-- What `make_kid` amounts to in the process that continues after `fork`. -/
inductive Kid where
  /-- The supervisor: `make_kid` returned `n` after making `calls`. -/
  | parent (n : Int) (calls : List Call)
  /-- The new child: it runs `start_kid` and never returns. -/
  | child (run : ChildRun)

/-- The function `make_kid(ctx, fd)`; `pid` is what `fork` returned, `t` and
`exec_ok` describe the child's side. -/
def make_kid (ctx : lnetd_ctx) (fd : Int) (pid : Int) (t : FdTable) (exec_ok : Bool) : Kid :=
  if pid = 0 then
    let r := start_kid ctx fd t exec_ok
    Kid.child { r with calls := [Call.fork 0] ++ r.calls }
  else if pid = -1 then
    Kid.parent 0 ([Call.fork (-1)] ++ lnetd_log ctx LOG_ERR "fork failed: %s" ++ [Call.sleep 1])
  else
    Kid.parent 1 [Call.fork pid]

/-! ## `is_socket_mine` -/

/-- The two fields of `struct stat` the program reads. -/
structure stat_buf where
  st_dev : Nat
  st_ino : Nat
deriving DecidableEq, Repr

/-- The function `is_socket_mine(ctx)`; `sb` is what `stat(ctx->sockfn, &sb)`
found (`none` when it returned -1).  Returns the C result and the calls. -/
def is_socket_mine (ctx : lnetd_ctx) (sb : Option stat_buf) : Int × List Call :=
  match sb with
  | none =>
      (0, [Call.stat ctx.sockfn (-1)]
            ++ lnetd_log ctx LOG_ERR "stat(\"%s\", &sb2) failed: %s")
  | some b =>
      if b.st_dev ≠ ctx.sock_dev ∨ b.st_ino ≠ ctx.sock_ino then
        (0, [Call.stat ctx.sockfn 0]
              ++ lnetd_log ctx LOG_ERR "socket has changed: (%ld, %ld) != (%ld, %ld)")
      else (1, [Call.stat ctx.sockfn 0])

/-! ## `main_loop` as a state machine

The body of `for (;;)` is cut at its six statements; a state holds the
program point, the context, the global flag, the locals `fd` and `ret`, and
the number of children the kernel holds for this process.

A signal handler can run between any two statements; since `main_loop` reads
`die_now` only at the shutdown check, each input carries the signals
delivered since the previous statement.  Every blocking call of the loop is
bounded (`alarm(CHECK_TIME)` around `waitpid` and `accept`, the timeout of
`select`), so each statement completes and hands back a return value. -/

/-- How the process leaves `main_loop`. -/
inductive Exit where
  /-- The flag `die_now` was found set: `killpg`, `break`. -/
  | shutdown
  /-- The call `is_socket_mine` returned 0: `break`. -/
  | not_mine
  /-- The call `fork` returned 0: this process is the child and runs `start_kid`. -/
  | child
deriving DecidableEq, Repr

/-- Program points of `main_loop`. -/
inductive Pc where
  /-- The shutdown check `if (die_now) ...` -/
  | top
  /-- The identity check `if (!is_socket_mine(ctx)) break;` -/
  | mine
  /-- The capacity check `if (ctx->num_kids >= ctx->max_kids)` -/
  | cap
  /-- The blocking reap `alarm; if (waitpid(-1, &status, 0) > 0) num_kids--; alarm(0); continue;` -/
  | block
  /-- the test of `while (waitpid(-1, &status, WNOHANG) > 0) num_kids--;` -/
  | reap
  /-- The wait for activity: `select` (wait mode) or `accept` -/
  | wait
  /-- The dispatch `switch (ret)` -/
  | dispatch
  /-- after the loop, or in the child -/
  | done (e : Exit)
deriving DecidableEq, Repr

/-- State of `main_loop`. -/
structure Loop where
  pc : Pc
  ctx : lnetd_ctx
  die_now : Int
  fd : Int
  ret : Int
  /-- kernel side: children of this process that were forked and not yet reaped -/
  children : Nat
deriving DecidableEq, Repr

/-- What the environment supplies for one step. -/
structure Input where
  /-- signals whose handler runs just before the statement of this step -/
  sigs : List Int
  /-- result of `stat(ctx->sockfn)`, read at `Pc.mine` -/
  sb : Option stat_buf
  /-- return value the kernel has for the system call of this step
  (`waitpid`, `select`, `accept` or `fork`) -/
  r : Int
  /-- descriptor table of the child, read when `fork` returns 0 -/
  fds : FdTable
  /-- whether `execv` succeeds in the child -/
  exec_ok : Bool

/-- The kernel's `waitpid(-1, &status, options)` for a process holding
`children` un-reaped children of its own: a positive answer `r` (a reaped
child) is only possible while `children > 0` and then consumes one child;
without children the call fails (`ECHILD`, -1).  A non-positive `r` (0 under
`WNOHANG`, -1 for `EINTR`) is passed through. -/
def waitpid (children : Nat) (r : Int) : Int × Nat :=
  if 0 < r then
    if 0 < children then (r, children - 1) else (-1, children)
  else (r, children)

/-- The kernel's `fork()`: 0 in the child, the child's positive pid in the
parent, and -1 for every failure. -/
def fork (r : Int) : Int :=
  if r < 0 then -1 else r

/-- Run the handler for each delivered signal. -/
def deliver (sigs : List Int) (die_now : Int) : Int :=
  sigs.foldl (fun d sig => sighndler sig d) die_now

/-- The statement at `s.pc`, with the next state and the calls made. -/
def exec_pc (s : Loop) (i : Input) : Loop × List Call :=
  match s.pc with
  | Pc.top =>
      if s.die_now ≠ 0 then
        ({ s with pc := Pc.done Exit.shutdown }, [Call.killpg 0 SIGHUP])
      else ({ s with pc := Pc.mine }, [])
  | Pc.mine =>
      let m := is_socket_mine s.ctx i.sb
      if m.1 = 0 then ({ s with pc := Pc.done Exit.not_mine }, m.2)
      else ({ s with pc := Pc.cap }, m.2)
  | Pc.cap =>
      if s.ctx.num_kids ≥ s.ctx.max_kids then ({ s with pc := Pc.block }, [])
      else ({ s with pc := Pc.reap }, [])
  | Pc.block =>
      let w := waitpid s.children i.r
      let calls := [Call.alarm CHECK_TIME, Call.waitpid (-1) 0 w.1, Call.alarm 0]
      if w.1 > 0 then
        ({ s with pc := Pc.top, children := w.2,
                  ctx := { s.ctx with num_kids := s.ctx.num_kids - 1 } }, calls)
      else ({ s with pc := Pc.top, children := w.2 }, calls)
  | Pc.reap =>
      let w := waitpid s.children i.r
      if w.1 > 0 then
        ({ s with pc := Pc.reap, children := w.2,
                  ctx := { s.ctx with num_kids := s.ctx.num_kids - 1 } },
         [Call.waitpid (-1) WNOHANG w.1])
      else ({ s with pc := Pc.wait, children := w.2 }, [Call.waitpid (-1) WNOHANG w.1])
  | Pc.wait =>
      if s.ctx.wait_service ≠ 0 then
        ({ s with pc := Pc.dispatch, ret := i.r }, [Call.select (s.ctx.fd + 1) i.r])
      else
        ({ s with pc := Pc.dispatch, ret := i.r, fd := i.r },
         [Call.alarm CHECK_TIME, Call.accept s.ctx.fd i.r, Call.alarm 0])
  | Pc.dispatch =>
      if s.ret = -1 ∨ s.ret = 0 then ({ s with pc := Pc.top }, [])
      else
        match make_kid s.ctx s.fd (fork i.r) i.fds i.exec_ok with
        | Kid.parent n calls =>
            ({ s with pc := Pc.top,
                      ctx := { s.ctx with num_kids := s.ctx.num_kids + n },
                      children := if 0 < fork i.r then s.children + 1 else s.children },
             [Call.make_kid s.fd] ++ calls)
        | Kid.child r => ({ s with pc := Pc.done Exit.child }, [Call.make_kid s.fd] ++ r.calls)
  | Pc.done _ => (s, [])

/-- One step of `main_loop`: the handlers of the signals delivered at this
point run, then the statement at `s.pc`.  Once the loop is left nothing
more happens. -/
def step (s : Loop) (i : Input) : Loop × List Call :=
  match s.pc with
  | Pc.done _ => (s, [])
  | _ =>
      let r := exec_pc { s with die_now := deliver i.sigs s.die_now } i
      (r.1, i.sigs.map Call.sighndler ++ r.2)

/-- Run `main_loop` from `s` on a sequence of inputs: final state and all calls. -/
def run (s : Loop) : List Input → Loop × List Call
  | [] => (s, [])
  | i :: is =>
      let a := step s i
      let b := run a.1 is
      (b.1, a.2 ++ b.2)

/-- Entry into `main_loop(ctx)`: `fd = -1`, `die_now` as initialised (0), and
no child forked yet.  The local `ret` is written at `Pc.wait` before it is
read at `Pc.dispatch`. -/
def main_loop_init (ctx : lnetd_ctx) : Loop :=
  { pc := Pc.top, ctx := ctx, die_now := 0, fd := -1, ret := 0, children := 0 }

/-! ## Command line: `getopt`, `atoi`, `strtoul` and `lnetd_process_args` -/

/-- How the process ends when `fatal` is called: `exit(status)` after the
calls listed (the line given to `vlog`). -/
structure Fatal where
  status : Int
  calls : List Call
deriving DecidableEq, Repr

/-- The function `fatal`: log at `LOG_ERR`, then `exit(1)`. -/
def fatal (ctx : lnetd_ctx) (fmt : String) : Fatal :=
  { status := 1, calls := vlog (some ctx) LOG_ERR fmt }

/-- The function `lnetd_usage`. -/
def lnetd_usage (ctx : lnetd_ctx) : Fatal :=
  fatal ctx "usage: %s [-dw] [-N max_kids] command [args]"

/-- The function `parse_gid`; `getgrnam` is the group database. -/
def parse_gid (getgrnam : String → Option Nat) (ctx : lnetd_ctx) (group : String) :
    Except Fatal Nat :=
  match getgrnam group with
  | some gid => Except.ok gid
  | none => Except.error (fatal ctx "group \"%s\" not found.")

/-- The function `parse_uid`; `getpwnam` is the user database. -/
def parse_uid (getpwnam : String → Option Nat) (ctx : lnetd_ctx) (user : String) :
    Except Fatal Nat :=
  match getpwnam user with
  | some uid => Except.ok uid
  | none => Except.error (fatal ctx "user \"%s\" not found.")

/-- C `isspace` in the "C" locale. -/
def isspace (c : Char) : Bool :=
  c.toNat = 32 || (9 ≤ c.toNat && c.toNat ≤ 13)

/-- Drop leading white space. -/
def skip_space : List Char → List Char
  | [] => []
  | c :: cs => if isspace c = true then skip_space cs else c :: cs

/-- Value of the longest run of leading digits below `base`, starting from `acc`. -/
def scan_digits (base : Nat) : List Char → Nat → Nat
  | [], acc => acc
  | c :: cs, acc =>
      if 48 ≤ c.toNat ∧ c.toNat - 48 < base ∧ c.toNat ≤ 57 then
        scan_digits base cs (acc * base + (c.toNat - 48))
      else acc

/-- Split an optional sign off: `true` for a leading minus. -/
def take_sign : List Char → Bool × List Char
  | '-' :: r => (true, r)
  | '+' :: r => (false, r)
  | t => (false, t)

/-- C `atoi` as the C library computes it, `(int) strtol(s, NULL, 10)` with a
64-bit `long`: white space, sign, decimal digits, saturation at the ends of
`long`, then the low 32 bits as a signed value. -/
def atoi (s : String) : Int :=
  let p := take_sign (skip_space s.data)
  let v : Int := scan_digits 10 p.2 0
  let l : Int := if p.1 = true then max (-v) (-(2 ^ 63)) else min v (2 ^ 63 - 1)
  (l + 2 ^ 31) % 2 ^ 32 - 2 ^ 31

/-- The conversion `ctx->sockmode = strtoul(optarg, NULL, 8)`: white space,
sign, octal digits, saturation at `ULONG_MAX`, negation modulo `2^64`, then
the low 32 bits (`mode_t`). -/
def strtoul8 (s : String) : Nat :=
  let p := take_sign (skip_space s.data)
  let v := scan_digits 8 p.2 0
  let u := if 2 ^ 64 - 1 < v then 2 ^ 64 - 1 else if p.1 = true then (2 ^ 64 - v) % 2 ^ 64 else v
  u % 2 ^ 32

/-- The option string that `getopt` searches: `POS "?N:g:m:u:w"`.  On Linux
`POS` is `"+"`, which `getopt` strips and reads as "stop at the first
non-option"; elsewhere that is the behaviour anyway. -/
def OPTSTRING : List Char := "?N:g:m:u:w".data

/-- The state `getopt` keeps between calls: `optind`, the unread rest of the
option cluster being scanned (`nextchar`), and `optarg`. -/
structure Getopt where
  optind : Nat
  nextchar : List Char
  optarg : Option String
deriving DecidableEq, Repr

/-- Look an option character up in the option string (`strchr`): `none` when
it is not an option, else whether a colon follows it (an argument is
required).  The colon itself is never an option. -/
def opt_lookup : List Char → Char → Option Bool
  | [], _ => none
  | x :: rest, c =>
      if c = ':' then none
      else if x = c then some (decide (rest.head? = some ':'))
      else opt_lookup rest c

/-- The part of `getopt` that handles the option character `c`, taken from
the front of a cluster whose unread rest is `rest`. -/
def getopt_char (argv : List String) (optstring : List Char) (g : Getopt) (c : Char)
    (rest : List Char) : Option Char × Getopt :=
  let ind := if rest = [] then g.optind + 1 else g.optind
  match opt_lookup optstring c with
  | none => (some '?', { optind := ind, nextchar := rest, optarg := none })
  | some false => (some c, { optind := ind, nextchar := rest, optarg := none })
  | some true =>
      match rest with
      | _ :: _ => (some c, { optind := ind + 1, nextchar := [], optarg := some (String.mk rest) })
      | [] =>
          match argv.get? ind with
          | none => (some '?', { optind := ind, nextchar := [], optarg := none })
          | some a => (some c, { optind := ind + 1, nextchar := [], optarg := some a })

/-- POSIX `getopt(argc, argv, optstring)` for short options, scanning in
order: `none` is the return value -1, `some c` the character returned.  An
element that does not start with a dash, or is a lone dash, ends the scan;
so does `--`, which is skipped. -/
def getopt (argv : List String) (optstring : List Char) (g : Getopt) : Option Char × Getopt :=
  match g.nextchar with
  | c :: rest => getopt_char argv optstring g c rest
  | [] =>
      match argv.get? g.optind with
      | none => (none, { g with optarg := none })
      | some a =>
          match a.data with
          | ['-', '-'] => (none, { optind := g.optind + 1, nextchar := [], optarg := none })
          | '-' :: c :: rest => getopt_char argv optstring g c rest
          | _ => (none, { g with optarg := none })

/-- The loop `while ((ch = getopt(...)) != -1) switch (ch) ...` of
`lnetd_process_args`, at most `fuel` times round.  Every round but the last
consumes a character of the command line, so `argv_chars argv + 1` rounds
always reach the end of the loop (`process_opts_fuel_enough`). -/
def process_opts (getgrnam getpwnam : String → Option Nat) (argv : List String) :
    Nat → Getopt → lnetd_ctx → Except Fatal (lnetd_ctx × Getopt)
  | 0, g, ctx => Except.ok (ctx, g)
  | fuel + 1, g, ctx =>
      match getopt argv OPTSTRING g with
      | (none, g1) => Except.ok (ctx, g1)
      | (some ch, g1) =>
          if ch = 'N' then
            process_opts getgrnam getpwnam argv fuel g1
              { ctx with max_kids := atoi (g1.optarg.getD "") }
          else if ch = 'd' then
            process_opts getgrnam getpwnam argv fuel g1 { ctx with debug := 1 }
          else if ch = 'g' then
            match parse_gid getgrnam ctx (g1.optarg.getD "") with
            | Except.ok gid =>
                process_opts getgrnam getpwnam argv fuel g1 { ctx with sockgid := gid }
            | Except.error f => Except.error f
          else if ch = 'm' then
            process_opts getgrnam getpwnam argv fuel g1
              { ctx with sockmode := strtoul8 (g1.optarg.getD "") }
          else if ch = 'u' then
            match parse_uid getpwnam ctx (g1.optarg.getD "") with
            | Except.ok uid =>
                process_opts getgrnam getpwnam argv fuel g1 { ctx with sockuid := uid }
            | Except.error f => Except.error f
          else if ch = 'w' then
            process_opts getgrnam getpwnam argv fuel g1
              { ctx with wait_service := 1, max_kids := 1 }
          else Except.error (lnetd_usage ctx)

/-- The context after `memset` and the defaults set at the head of
`lnetd_process_args`. -/
def ctx_defaults (argv : List String) : lnetd_ctx :=
  { progname := argv.headD "", num_kids := 0, max_kids := 30, wait_service := 0,
    daemonise := 1, debug := 0, fd := -1, sockfn := "", sock_dev := 0, sock_ino := 0,
    sockmode := 0o666, sockuid := NO_ID, sockgid := NO_ID, kid_prognam := "",
    kid_args := [] }

/-- Number of characters on the command line; `getopt` returns an option at
most that many times. -/
def argv_chars (argv : List String) : Nat :=
  (argv.map (fun a => a.data.length)).sum

/-- The function `lnetd_process_args(ctx, argc, argv)`: the context it
fills in when it returns (it then returns 1), or the `exit(1)` it ends in. -/
def lnetd_process_args (getgrnam getpwnam : String → Option Nat) (argv : List String) :
    Except Fatal lnetd_ctx :=
  match process_opts getgrnam getpwnam argv (argv_chars argv + 1)
      { optind := 1, nextchar := [], optarg := none } (ctx_defaults argv) with
  | Except.error f => Except.error f
  | Except.ok (ctx, g) =>
      if (argv.length : Int) - (g.optind : Int) < 2 then
        Except.error (fatal ctx "not enough args.")
      else
        Except.ok { ctx with sockfn := (argv.drop g.optind).headD "",
                             kid_prognam := (argv.drop (g.optind + 1)).headD "",
                             kid_args := argv.drop (g.optind + 1) }

/-! ## The file system and `setup_socket` -/

/-- What the file system keeps for a name: the identity of the inode
(`dev`, `ino`), its permission bits and its owner. -/
structure File where
  dev : Nat
  ino : Nat
  mode : Nat
  uid : Nat
  gid : Nat
deriving DecidableEq, Repr

/-- The file system as far as the program sees it: path to file. -/
abbrev Fs := String → Option File

/-- Replace what is stored under one path. -/
def Fs.set (fs : Fs) (path : String) (f : Option File) : Fs :=
  fun p => if p = path then f else fs p

/-- What the environment supplies to one run of `setup_socket`.  A flag
`*_ok = false` makes that call fail (return -1) for a reason outside the file
system kept here; with `true` the call succeeds whenever the file system
allows it. -/
structure SockEnv where
  malloc_ok : Bool
  /-- return value of `socket`: a descriptor, or -1 -/
  socket_ret : Int
  old_umask : Nat
  bind_ok : Bool
  stat_ok : Bool
  chmod_ok : Bool
  chown_ok : Bool
  rename_ok : Bool
  listen_ok : Bool
  /-- whether the kernel clears the set-user-ID bit when `chown` succeeds -/
  clear_suid : Bool
  /-- whether the kernel clears the set-group-ID bit when `chown` succeeds -/
  clear_sgid : Bool
  /-- the inode a successful `bind` creates: its identity and its owner -/
  node : File
  /-- contents of the local `struct stat sb` before `stat` writes it -/
  junk : stat_buf
deriving DecidableEq, Repr

/-- Size of the array `sun_path` of `struct sockaddr_un`. -/
def SUN_PATH_MAX : Nat := 108

/-- Length of a path in bytes (`strlen`). -/
def path_bytes (p : String) : Nat :=
  (p.data.map Char.utf8Size).sum

/-- The longest run of leading characters that fits into `n` bytes. -/
def take_bytes : Nat → List Char → List Char
  | _, [] => []
  | n, c :: cs => if c.utf8Size ≤ n then c :: take_bytes (n - c.utf8Size) cs else []

/-- The name the kernel reads out of `un.sun_path` after
`strcpy(un.sun_path, tmppath)` and `bind(fd, &un, sizeof(un))`: the array
holds `SUN_PATH_MAX` bytes and the copy is unchecked, so a longer path is
bound under its first `SUN_PATH_MAX` bytes only (whole characters here: the
bytes of a character cut in the middle are left out).  A path that fits is
bound as it is. -/
def sun_path (p : String) : String :=
  String.mk (take_bytes SUN_PATH_MAX p.data)

/-- A file mode after the kernel has cleared the set-user-ID (04000) and
set-group-ID (02000) bits it was asked to clear; the nine permission bits
and the sticky bit stay. -/
def drop_setid (clear_suid clear_sgid : Bool) (mode : Nat) : Nat :=
  mode % 1024
    + (if clear_sgid = true then 0 else mode / 1024 % 2 * 1024)
    + (if clear_suid = true then 0 else mode / 2048 % 2 * 2048)

/-- The call `bind` on a path, under `umask(0)`: creates the socket file with
mode 0777, and fails when the name is taken. -/
def sys_bind (fs : Fs) (ok : Bool) (node : File) (path : String) : Int × Fs :=
  if ok = true ∧ fs path = none then (0, fs.set path (some { node with mode := 0o777 }))
  else (-1, fs)

/-- The call `stat`: the identity of the file under `path`, `none` for -1. -/
def sys_stat (fs : Fs) (ok : Bool) (path : String) : Option stat_buf :=
  if ok = true then (fs path).map (fun f => { st_dev := f.dev, st_ino := f.ino }) else none

/-- The call `chmod`: sets the twelve permission bits. -/
def sys_chmod (fs : Fs) (ok : Bool) (path : String) (mode : Nat) : Int × Fs :=
  match fs path with
  | some f => if ok = true then (0, fs.set path (some { f with mode := mode % 4096 })) else (-1, fs)
  | none => (-1, fs)

/-- The call `chown`: an id of `(uid_t)-1` leaves that owner as it is.  On a
file that is not a directory the kernel may clear the set-user-ID and
set-group-ID bits of the mode, also when both ids are `(uid_t)-1` (Linux
clears set-user-ID, and set-group-ID when group-execute is set);
`clear_suid` and `clear_sgid` say which bits it clears. -/
def sys_chown (fs : Fs) (ok : Bool) (clear_suid clear_sgid : Bool) (path : String)
    (uid gid : Nat) : Int × Fs :=
  match fs path with
  | some f =>
      if ok = true then
        (0, fs.set path (some { f with uid := if uid = NO_ID then f.uid else uid,
                                       gid := if gid = NO_ID then f.gid else gid,
                                       mode := drop_setid clear_suid clear_sgid f.mode }))
      else (-1, fs)
  | none => (-1, fs)

/-- The call `rename`: the file moves to the new name, replacing what was there. -/
def sys_rename (fs : Fs) (ok : Bool) (old new : String) : Int × Fs :=
  match fs old with
  | some f => if ok = true then (0, (fs.set old none).set new (some f)) else (-1, fs)
  | none => (-1, fs)

/-- Result of `setup_socket`: its return value, the context and file system
it leaves, and the calls it made. -/
structure SockResult where
  ret : Int
  ctx : lnetd_ctx
  fs : Fs
  calls : List Call

/-- The code at the label `done:` of `setup_socket`. -/
def setup_done (ret fd : Int) (ctx : lnetd_ctx) (fs : Fs) (calls : List Call) : SockResult :=
  { ret := if ret = -1 then -1 else fd,
    ctx := ctx, fs := fs,
    calls := if ret = -1 ∧ fd ≠ -1 then calls ++ [Call.close fd] else calls }

/-- The function `setup_socket(ctx)` on file system `fs`.  The socket is
bound under `sun_path tmppath`, the name that fits into `un.sun_path`; every
later call is made on `tmppath` itself. -/
def setup_socket (ctx : lnetd_ctx) (fs : Fs) (e : SockEnv) : SockResult :=
  let c0 := lnetd_log ctx LOG_DEBUG "setup_socket..."
  if e.malloc_ok = false then
    { ret := -1, ctx := ctx, fs := fs,
      calls := c0 ++ [Call.malloc false]
                ++ lnetd_log ctx LOG_ERR "malloc failure in setup_socket" }
  else
    let tmppath := ctx.sockfn ++ "X"
    let fd := e.socket_ret
    if fd = -1 then
      { ret := -1, ctx := ctx, fs := fs,
        calls := c0 ++ [Call.malloc true, Call.socket (-1), Call.perror "socket"] }
    else
      let b := sys_bind fs e.bind_ok e.node (sun_path tmppath)
      let c1 := c0 ++ [Call.malloc true, Call.socket fd, Call.umask 0,
                        Call.bind fd (sun_path tmppath) b.1, Call.umask e.old_umask]
      if b.1 ≠ 0 then setup_done b.1 fd ctx b.2 (c1 ++ [Call.perror "bind"])
      else
        let st := sys_stat b.2 e.stat_ok tmppath
        let c2 := c1 ++
          (match st with
           | none => [Call.stat tmppath (-1)] ++ lnetd_log ctx LOG_ERR "can't stat tmppath: %s"
           | some _ => [Call.stat tmppath 0])
        let sb := st.getD e.junk
        let ctx1 := { ctx with sock_dev := sb.st_dev, sock_ino := sb.st_ino }
        let m := sys_chmod b.2 e.chmod_ok tmppath ctx1.sockmode
        let c3 := c2 ++ [Call.chmod tmppath ctx1.sockmode m.1]
        if m.1 ≠ 0 then setup_done m.1 fd ctx1 m.2 (c3 ++ [Call.perror "chmod"])
        else
          let o := sys_chown m.2 e.chown_ok e.clear_suid e.clear_sgid tmppath
                     ctx1.sockuid ctx1.sockgid
          let c4 := c3 ++ [Call.chown tmppath ctx1.sockuid ctx1.sockgid o.1]
          if o.1 ≠ 0 then setup_done o.1 fd ctx1 o.2 (c4 ++ [Call.perror "chown"])
          else
            let r := sys_rename o.2 e.rename_ok tmppath ctx1.sockfn
            let c5 := c4 ++ [Call.rename tmppath ctx1.sockfn r.1]
            if r.1 ≠ 0 then setup_done r.1 fd ctx1 r.2 (c5 ++ [Call.perror "rename"])
            else
              let l : Int := if e.listen_ok = true then 0 else -1
              let c6 := c5 ++ [Call.listen fd 15 l]
              if l ≠ 0 then setup_done l fd ctx1 r.2 (c6 ++ [Call.perror "listen"])
              else setup_done l fd ctx1 r.2 c6

/-! ## Predicates used in the statements -/

/-- The bookkeeping invariant of `main_loop` for capacity `M`: `max_kids` is
`M`, `num_kids` equals the number of children the kernel holds, it is at most
`M`, and it is below `M` between the capacity check and the dispatch. -/
def Inv (M : Int) (s : Loop) : Prop :=
  s.ctx.max_kids = M ∧ s.ctx.num_kids = (s.children : Int) ∧ s.ctx.num_kids ≤ M ∧
  ((s.pc = Pc.reap ∨ s.pc = Pc.wait ∨ s.pc = Pc.dispatch) → s.ctx.num_kids < M)

/-- The state reached from `s0` by `is` lies in an iteration whose capacity
check found `num_kids < max_kids`: the run passed that check at some point
`pre` and has not been back at the top of the loop since. -/
def RoomFound (s0 : Loop) (is : List Input) : Prop :=
  ∃ pre post, is = pre ++ post ∧
    (run s0 pre).1.pc = Pc.cap ∧
    (run s0 pre).1.ctx.num_kids < (run s0 pre).1.ctx.max_kids ∧
    ∀ q, q <+: post → (run s0 (pre ++ q)).1.pc ≠ Pc.top

/-- Total length of the command-line elements from index `k` on. -/
def chars_from (argv : List String) (k : Nat) : Nat :=
  ((argv.drop k).map (fun a => a.data.length)).sum

/-- Number of command-line characters `getopt` has not scanned yet: the rest
of the current cluster and the elements after it. -/
def opts_left (argv : List String) (g : Getopt) : Nat :=
  g.nextchar.length + chars_from argv (if g.nextchar = [] then g.optind else g.optind + 1)

/-- Whether a call is the entry into `make_kid`. -/
def is_make_kid : Call → Bool
  | Call.make_kid _ => true
  | _ => false

/-- Whether a call is `killpg`. -/
def is_killpg : Call → Bool
  | Call.killpg _ _ => true
  | _ => false

/-- A call that is neither `make_kid` nor `killpg`. -/
def quiet (c : Call) : Prop :=
  is_make_kid c = false ∧ is_killpg c = false

/-- A bound on the number of steps `main_loop` still takes once `die_now` is
set: the steps left in the iteration in progress plus the shutdown check. -/
def rank (s : Loop) : Nat :=
  match s.pc with
  | Pc.done _ => 0
  | Pc.top => 1
  | Pc.dispatch => 2
  | Pc.block => 2
  | Pc.wait => 3
  | Pc.reap => 4 + s.children
  | Pc.cap => 5 + s.children
  | Pc.mine => 6 + s.children

/-- Number of `make_kid` calls the iteration in progress can still make
before the next shutdown check: none at the top of the loop, in the
blocking reap and after the loop, one elsewhere. -/
def budget (s : Loop) : Nat :=
  match s.pc with
  | Pc.done _ => 0
  | Pc.top => 0
  | Pc.block => 0
  | _ => 1

/-- A context for the examples: two children allowed, listening on
descriptor 3, socket `/tmp/s` recorded as inode 77 of device 2049. -/
def demo_ctx : lnetd_ctx :=
  { progname := "lnetd", num_kids := 0, max_kids := 2, wait_service := 0, daemonise := 1,
    debug := 0, fd := 3, sockfn := "/tmp/s", sock_dev := 2049, sock_ino := 77,
    sockmode := 0o666, sockuid := NO_ID, sockgid := NO_ID, kid_prognam := "/bin/cat",
    kid_args := ["/bin/cat"] }

/-- A descriptor table with 0, 1, 2 open on description 0, the listening
socket on 3 and an accepted connection on 5. -/
def demo_fds : FdTable :=
  fun k => if k = 0 ∨ k = 1 ∨ k = 2 then some 0 else if k = 3 then some 1
           else if k = 5 then some 2 else none

/-- An input without signals, with the socket file in place, and with
kernel answer `r`. -/
def calm (r : Int) : Input :=
  { sigs := [], sb := some { st_dev := 2049, st_ino := 77 }, r := r, fds := demo_fds,
    exec_ok := true }

/-- One full iteration that accepts connection 5 and forks child 100:
shutdown check, identity check, capacity check, an empty reap, `accept`,
dispatch. -/
def spawn_iteration : List Input :=
  [calm 0, calm 0, calm 0, calm 0, calm 5, calm 100]

/-- Inputs up to the identity check of the first iteration, with `SIGTERM`
delivered after the shutdown check was passed. -/
def race_pre : List Input :=
  [calm 0, { calm 0 with sigs := [SIGTERM] }]

/-- The rest of that iteration: capacity check, an empty reap, `accept`
returning 5, dispatch with `fork` returning 100. -/
def race_post : List Input :=
  [calm 0, calm 0, calm 5, calm 100]

/-- The context `demo_ctx` in wait mode, as `-w` sets it up. -/
def wait_ctx : lnetd_ctx :=
  { demo_ctx with wait_service := 1, max_kids := 1 }

/-- One full iteration in wait mode whose `select` reports the listening
socket ready (1) and whose `fork` returns 0: the state followed is the child. -/
def wait_iteration : List Input :=
  [calm 0, calm 0, calm 0, calm 0, calm 1, calm 0]

/-- An empty user or group database. -/
def no_db : String → Option Nat :=
  fun _ => none

/-- A file system without any file. -/
def empty_fs : Fs :=
  fun _ => none

/-- An environment for `setup_socket` in which every call succeeds except
`stat`: `socket` returns 3, `bind` creates inode 77 on device 2049 owned by
root, and the local `struct stat` holds zeros before `stat` is called. -/
def stat_fails : SockEnv :=
  { malloc_ok := true, socket_ret := 3, old_umask := 0o22, bind_ok := true,
    stat_ok := false, chmod_ok := true, chown_ok := true, rename_ok := true,
    listen_ok := true, clear_suid := true, clear_sgid := true,
    node := { dev := 2049, ino := 77, mode := 0, uid := 0, gid := 0 },
    junk := { st_dev := 0, st_ino := 0 } }

/-- The context before `setup_socket`: as `lnetd_process_args` leaves it for
the command line `lnetd /tmp/s /bin/cat`. -/
def fresh_ctx : lnetd_ctx :=
  { progname := "lnetd", num_kids := 0, max_kids := 30, wait_service := 0, daemonise := 1,
    debug := 0, fd := -1, sockfn := "/tmp/s", sock_dev := 0, sock_ino := 0,
    sockmode := 0o666, sockuid := NO_ID, sockgid := NO_ID, kid_prognam := "/bin/cat",
    kid_args := ["/bin/cat"] }

/-- Inputs of a first iteration in which `SIGTERM` is delivered after the
shutdown check and the socket file is gone at the identity check. -/
def race_gone : List Input :=
  [calm 0, { calm 0 with sigs := [SIGTERM], sb := none }]

/-- An input at the shutdown check with `SIGHUP` just delivered and the
socket file gone. -/
def hup_gone : Input :=
  { calm 0 with sigs := [SIGHUP], sb := none }

/-! # Theorems -/

/-! ## Generalities on `run` -/

theorem run_append (s : Loop) (a b : List Input) :
    run s (a ++ b) = ((run (run s a).1 b).1, (run s a).2 ++ (run (run s a).1 b).2) := by
  induction a generalizing s with
  | nil => simp [run]
  | cons i a ih => simp [run, ih, List.append_assoc]

theorem run_concat_fst (s : Loop) (a : List Input) (i : Input) :
    (run s (a ++ [i])).1 = (step (run s a).1 i).1 := by
  simp [run_append, run]

theorem step_done (s : Loop) (i : Input) (e : Exit) (h : s.pc = Pc.done e) :
    step s i = (s, []) := by
  simp [step, h]

/-! ## The child count -/

theorem waitpid_pos (c : Nat) (r : Int) (h : 0 < (waitpid c r).1) :
    0 < c ∧ (waitpid c r).2 = c - 1 := by
  unfold waitpid at h ⊢
  split_ifs at h ⊢ <;> simp_all

theorem waitpid_nonpos (c : Nat) (r : Int) (h : ¬ 0 < (waitpid c r).1) :
    (waitpid c r).2 = c := by
  unfold waitpid at h ⊢
  split_ifs at h ⊢ <;> simp_all

theorem fork_cases (r : Int) : fork r = 0 ∨ fork r = -1 ∨ 0 < fork r := by
  unfold fork
  split_ifs <;> omega

theorem make_kid_child (ctx : lnetd_ctx) (fd : Int) (t : FdTable) (x : Bool) :
    make_kid ctx fd 0 t x
      = Kid.child { start_kid ctx fd t x with
                    calls := [Call.fork 0] ++ (start_kid ctx fd t x).calls } := by
  simp [make_kid]

theorem make_kid_failed (ctx : lnetd_ctx) (fd : Int) (t : FdTable) (x : Bool) :
    make_kid ctx fd (-1) t x
      = Kid.parent 0 ([Call.fork (-1)] ++ lnetd_log ctx LOG_ERR "fork failed: %s"
                        ++ [Call.sleep 1]) := by
  simp [make_kid]

theorem make_kid_forked (ctx : lnetd_ctx) (fd pid : Int) (t : FdTable) (x : Bool)
    (h : 0 < pid) : make_kid ctx fd pid t x = Kid.parent 1 [Call.fork pid] := by
  have h0 : pid ≠ 0 := by omega
  have h1 : pid ≠ -1 := by omega
  simp [make_kid, h0, h1]

theorem step_inv (M : Int) (s : Loop) (i : Input) (h : Inv M s) : Inv M (step s i).1 := by
  obtain ⟨pc, ctx, d, fd, ret, ch⟩ := s
  obtain ⟨h1, h2, h3, h4⟩ := h
  simp only at h1 h2 h3 h4
  cases pc
  case top =>
    simp only [step, exec_pc]
    split_ifs <;> exact ⟨h1, h2, h3, by simp⟩
  case mine =>
    simp only [step, exec_pc]
    split_ifs <;> exact ⟨h1, h2, h3, by simp⟩
  case cap =>
    simp only [step, exec_pc]
    split_ifs with hc
    · exact ⟨h1, h2, h3, by simp⟩
    · refine ⟨h1, h2, h3, fun _ => ?_⟩
      simp only at hc ⊢
      omega
  case block =>
    simp only [step, exec_pc]
    split_ifs with hw
    · obtain ⟨hp, he⟩ := waitpid_pos ch i.r hw
      refine ⟨h1, ?_, ?_, by simp⟩ <;> simp only [he] <;> omega
    · have he := waitpid_nonpos ch i.r hw
      refine ⟨h1, ?_, h3, by simp⟩
      simp only [he]; exact h2
  case reap =>
    have hlt := h4 (Or.inl rfl)
    simp only [step, exec_pc]
    split_ifs with hw
    · obtain ⟨hp, he⟩ := waitpid_pos ch i.r hw
      refine ⟨h1, ?_, ?_, fun _ => ?_⟩ <;> simp only [he] <;> omega
    · have he := waitpid_nonpos ch i.r hw
      refine ⟨h1, ?_, h3, fun _ => hlt⟩
      simp only [he]; exact h2
  case wait =>
    have hlt := h4 (Or.inr (Or.inl rfl))
    simp only [step, exec_pc]
    split_ifs <;> exact ⟨h1, h2, h3, fun _ => hlt⟩
  case dispatch =>
    have hlt := h4 (Or.inr (Or.inr rfl))
    by_cases hr : ret = -1 ∨ ret = 0
    · simp only [step, exec_pc, if_pos hr]
      exact ⟨h1, h2, h3, by simp⟩
    · simp only [step, exec_pc, if_neg hr]
      rcases fork_cases i.r with hf | hf | hf
      · simp only [hf, make_kid_child]
        exact ⟨h1, h2, h3, by simp⟩
      · simp only [hf, make_kid_failed]
        refine ⟨h1, ?_, ?_, by simp⟩ <;> simp <;> omega
      · simp only [make_kid_forked _ _ _ _ _ hf, if_pos hf]
        refine ⟨h1, ?_, ?_, by simp⟩ <;> simp only <;> omega
  case done e =>
    exact ⟨h1, h2, h3, h4⟩

theorem run_inv (M : Int) (s : Loop) (is : List Input) (h : Inv M s) : Inv M (run s is).1 := by
  induction is generalizing s with
  | nil => exact h
  | cons i is ih => exact ih _ (step_inv M s i h)

theorem quiet_lnetd_log (ctx : lnetd_ctx) (pri : Int) (fmt : String) :
    ∀ c ∈ lnetd_log ctx pri fmt, quiet c := by
  simp only [lnetd_log, vlog]
  split_ifs <;> simp [quiet, is_make_kid, is_killpg]

theorem quiet_is_socket_mine (ctx : lnetd_ctx) (sb : Option stat_buf) :
    ∀ c ∈ (is_socket_mine ctx sb).2, quiet c := by
  have hl := quiet_lnetd_log ctx
  unfold is_socket_mine
  cases sb with
  | none =>
    simp only [List.forall_mem_append, List.forall_mem_singleton]
    exact ⟨by simp [quiet, is_make_kid, is_killpg], hl _ _⟩
  | some b =>
    simp only
    split_ifs
    · simp only [List.forall_mem_append, List.forall_mem_singleton]
      exact ⟨by simp [quiet, is_make_kid, is_killpg], hl _ _⟩
    · simp [quiet, is_make_kid, is_killpg]

theorem quiet_start_kid_exec (ctx : lnetd_ctx) (c0 : List Call) (t : FdTable) (x : Bool)
    (h0 : ∀ c ∈ c0, quiet c) : ∀ c ∈ (start_kid_exec ctx c0 t x).calls, quiet c := by
  have hl := quiet_lnetd_log ctx
  unfold start_kid_exec
  simp only
  split_ifs <;> intro c hc <;>
    simp only [List.mem_append, List.mem_cons, List.mem_singleton, List.not_mem_nil,
      or_false] at hc <;>
    casesm* _ ∨ _ <;>
    first
      | (apply h0; assumption)
      | (apply hl; assumption)
      | (subst_vars; exact ⟨rfl, rfl⟩)

theorem quiet_start_kid (ctx : lnetd_ctx) (fd : Int) (t : FdTable) (x : Bool) :
    ∀ c ∈ (start_kid ctx fd t x).calls, quiet c := by
  have hl := quiet_lnetd_log ctx
  unfold start_kid
  simp only
  split_ifs
  · intro c hc
    simp only [List.mem_append, List.mem_cons, List.mem_singleton, List.not_mem_nil,
      or_false] at hc
    casesm* _ ∨ _ <;>
    first
      | (apply hl; assumption)
      | (subst_vars; exact ⟨rfl, rfl⟩)
  · apply quiet_start_kid_exec
    intro c hc
    simp only [List.mem_cons, List.mem_singleton, List.not_mem_nil, or_false] at hc
    rcases hc with rfl | rfl <;> exact ⟨rfl, rfl⟩
  · apply quiet_start_kid_exec
    simp

theorem quiet_sigs (sigs : List Int) : ∀ c ∈ sigs.map Call.sighndler, quiet c := by
  intro c hc
  obtain ⟨a, _, rfl⟩ := List.mem_map.mp hc
  simp [quiet, is_make_kid, is_killpg]

theorem step_same_iteration (s : Loop) (i : Input)
    (h : (step s i).1.pc = Pc.reap ∨ (step s i).1.pc = Pc.wait ∨ (step s i).1.pc = Pc.dispatch) :
    (s.pc = Pc.cap ∧ s.ctx.num_kids < s.ctx.max_kids) ∨ s.pc = Pc.reap ∨ s.pc = Pc.wait := by
  obtain ⟨pc, ctx, d, fd, ret, ch⟩ := s
  cases pc
  case top =>
    simp only [step, exec_pc] at h
    split_ifs at h <;> simp at h
  case mine =>
    simp only [step, exec_pc] at h
    split_ifs at h <;> simp at h
  case cap =>
    simp only [step, exec_pc] at h
    split_ifs at h with hc
    · simp at h
    · simp only at hc ⊢
      exact Or.inl ⟨trivial, by omega⟩
  case block =>
    simp only [step, exec_pc] at h
    split_ifs at h <;> simp at h
  case reap => simp
  case wait => simp
  case dispatch =>
    by_cases hr : ret = -1 ∨ ret = 0
    · simp [step, exec_pc, if_pos hr] at h
    · simp only [step, exec_pc, if_neg hr] at h
      rcases fork_cases i.r with hf | hf | hf
      · simp [hf, make_kid_child] at h
      · simp [hf, make_kid_failed] at h
      · simp [make_kid_forked _ _ _ _ _ hf] at h
  case done e => simp [step] at h

theorem step_make_kid (s : Loop) (i : Input) (fd : Int) (h : Call.make_kid fd ∈ (step s i).2) :
    s.pc = Pc.dispatch ∧ fd = s.fd ∧ ¬ (s.ret = -1 ∨ s.ret = 0) := by
  have hq : ∀ l : List Call, (∀ c ∈ l, quiet c) → Call.make_kid fd ∉ l := by
    intro l hl hm
    have := (hl _ hm).1
    simp [is_make_kid] at this
  have hs := hq _ (quiet_sigs i.sigs)
  obtain ⟨pc, ctx, d, fd0, ret, ch⟩ := s
  cases pc
  case top =>
    simp only [step, exec_pc] at h
    split_ifs at h <;> simp at h
  case mine =>
    have hm := hq _ (quiet_is_socket_mine ctx i.sb)
    simp only [step, exec_pc] at h
    split_ifs at h <;> simp [hm] at h
  case cap =>
    simp only [step, exec_pc] at h
    split_ifs at h <;> simp at h
  case block =>
    simp only [step, exec_pc] at h
    split_ifs at h <;> simp at h
  case reap =>
    simp only [step, exec_pc] at h
    split_ifs at h <;> simp at h
  case wait =>
    simp only [step, exec_pc] at h
    split_ifs at h <;> simp at h
  case dispatch =>
    by_cases hr : ret = -1 ∨ ret = 0
    · simp [step, exec_pc, if_pos hr] at h
    · refine ⟨rfl, ?_, hr⟩
      simp only [step, exec_pc, if_neg hr] at h
      rcases fork_cases i.r with hf | hf | hf
      · have hk := hq _ (quiet_start_kid ctx fd0 i.fds i.exec_ok)
        simp only [hf, make_kid_child] at h
        simpa [hs, hk] using h
      · have hk := hq _ (quiet_lnetd_log ctx LOG_ERR "fork failed: %s")
        simp only [hf, make_kid_failed] at h
        simpa [hs, hk] using h
      · simpa [make_kid_forked _ _ _ _ _ hf] using h
  case done e => simp [step] at h

theorem room_found (s0 : Loop) (h0 : s0.pc = Pc.top) (is : List Input)
    (h : (run s0 is).1.pc = Pc.reap ∨ (run s0 is).1.pc = Pc.wait
          ∨ (run s0 is).1.pc = Pc.dispatch) :
    RoomFound s0 is := by
  induction is using List.reverseRecOn with
  | nil => simp [run, h0] at h
  | append_singleton l i ih =>
    rw [run_concat_fst] at h
    have hne : (run s0 (l ++ [i])).1.pc ≠ Pc.top := by
      rw [run_concat_fst]
      rcases h with h | h | h <;> rw [h] <;> simp
    rcases step_same_iteration _ i h with ⟨hc, hlt⟩ | hs | hs
    · refine ⟨l, [i], rfl, hc, hlt, ?_⟩
      intro q hq
      have hq1 : q <+: [] ++ [i] := hq
      rcases List.prefix_concat_iff.mp hq1 with rfl | hq2
      · exact hne
      · rw [List.prefix_nil.mp hq2]
        simp [hc]
    · obtain ⟨pre, post, rfl, hc, hlt, hq⟩ := ih (Or.inl hs)
      refine ⟨pre, post ++ [i], by simp, hc, hlt, ?_⟩
      intro q hq2
      rcases List.prefix_concat_iff.mp hq2 with rfl | hq3
      · rw [← List.append_assoc]; exact hne
      · exact hq q hq3
    · obtain ⟨pre, post, rfl, hc, hlt, hq⟩ := ih (Or.inr (Or.inl hs))
      refine ⟨pre, post ++ [i], by simp, hc, hlt, ?_⟩
      intro q hq2
      rcases List.prefix_concat_iff.mp hq2 with rfl | hq3
      · rw [← List.append_assoc]; exact hne
      · exact hq q hq3

theorem inv_init (ctx : lnetd_ctx) (h0 : ctx.num_kids = 0) (h1 : 1 ≤ ctx.max_kids) :
    Inv ctx.max_kids (main_loop_init ctx) := by
  refine ⟨rfl, ?_, ?_, ?_⟩
  · simp [main_loop_init, h0]
  · simp only [main_loop_init, h0]; omega
  · simp [main_loop_init]

/-- C1. Child-count invariant of `main_loop`.  Start `main_loop` with
`num_kids = 0`, `max_kids ≥ 1` and no child outstanding (`main_loop_init`);
`waitpid` reports a reaped child only while a forked child is outstanding
(`waitpid`).  Then in every state reached, after any sequence of inputs,
`0 ≤ num_kids ≤ max_kids` (and `max_kids` is the configured value); and
whenever the next step invokes `make_kid`, `num_kids < max_kids` holds at
that moment and the step lies in an iteration whose capacity check found
`num_kids < max_kids` (`RoomFound`). -/
theorem main_loop_child_count (ctx : lnetd_ctx) (h0 : ctx.num_kids = 0)
    (h1 : 1 ≤ ctx.max_kids) (is : List Input) :
    (0 ≤ (run (main_loop_init ctx) is).1.ctx.num_kids
      ∧ (run (main_loop_init ctx) is).1.ctx.num_kids
          ≤ (run (main_loop_init ctx) is).1.ctx.max_kids
      ∧ (run (main_loop_init ctx) is).1.ctx.max_kids = ctx.max_kids)
    ∧ ∀ (i : Input) (fd : Int),
        Call.make_kid fd ∈ (step (run (main_loop_init ctx) is).1 i).2 →
          (run (main_loop_init ctx) is).1.ctx.num_kids
              < (run (main_loop_init ctx) is).1.ctx.max_kids
          ∧ RoomFound (main_loop_init ctx) is := by
  obtain ⟨hM, hk, hle, hroom⟩ := run_inv ctx.max_kids _ is (inv_init ctx h0 h1)
  refine ⟨⟨by omega, by omega, hM⟩, ?_⟩
  intro i fd hmk
  have hd := (step_make_kid _ i fd hmk).1
  exact ⟨by have := hroom (Or.inr (Or.inr hd)); omega,
         room_found _ rfl is (Or.inr (Or.inr hd))⟩

/-- Witness for C1: the iteration of `demo_ctx` that accepts connection 5,
at the dispatch step that spawns the child. -/
theorem main_loop_child_count_witness :
    demo_ctx.num_kids = 0 ∧ 1 ≤ demo_ctx.max_kids
    ∧ (run (main_loop_init demo_ctx) spawn_iteration).1.ctx.num_kids = 1
    ∧ Call.make_kid 5
        ∈ (step (run (main_loop_init demo_ctx) [calm 0, calm 0, calm 0, calm 0, calm 5]).1
            (calm 100)).2
    ∧ ((run (main_loop_init demo_ctx) [calm 0, calm 0, calm 0, calm 0, calm 5]).1.ctx.num_kids
          < (run (main_loop_init demo_ctx)
              [calm 0, calm 0, calm 0, calm 0, calm 5]).1.ctx.max_kids
      ∧ RoomFound (main_loop_init demo_ctx) [calm 0, calm 0, calm 0, calm 0, calm 5]) :=
  ⟨rfl, by decide, by decide, by decide,
    (main_loop_child_count demo_ctx rfl (by decide)
      [calm 0, calm 0, calm 0, calm 0, calm 5]).2 (calm 100) 5 (by decide)⟩

/-! ## Shutdown -/

theorem countP_quiet (l : List Call) (h : ∀ c ∈ l, quiet c) :
    List.countP is_make_kid l = 0 ∧ List.countP is_killpg l = 0 := by
  constructor
  · rw [List.countP_eq_zero]
    intro c hc
    simp [(h c hc).1]
  · rw [List.countP_eq_zero]
    intro c hc
    simp [(h c hc).2]

theorem sighndler_ne_zero (sig d : Int) (h : d ≠ 0) : sighndler sig d ≠ 0 := by
  unfold sighndler
  split_ifs
  · decide
  · exact h

theorem deliver_ne_zero (sigs : List Int) (d : Int) (h : d ≠ 0) : deliver sigs d ≠ 0 := by
  unfold deliver
  induction sigs generalizing d with
  | nil => exact h
  | cons a l ih => exact ih _ (sighndler_ne_zero a d h)

theorem run_done (s : Loop) (e : Exit) (h : s.pc = Pc.done e) (is : List Input) :
    run s is = (s, []) := by
  induction is with
  | nil => rfl
  | cons i is ih => simp [run, step_done s i e h, ih]

theorem step_die_now (s : Loop) (i : Input) (h : s.die_now ≠ 0) : (step s i).1.die_now ≠ 0 := by
  have hd := deliver_ne_zero i.sigs s.die_now h
  obtain ⟨pc, ctx, d, fd, ret, ch⟩ := s
  cases pc
  case dispatch =>
    by_cases hr : ret = -1 ∨ ret = 0
    · simpa [step, exec_pc, if_pos hr] using hd
    · simp only [step, exec_pc, if_neg hr]
      rcases fork_cases i.r with hf | hf | hf
      · simpa [hf, make_kid_child] using hd
      · simpa [hf, make_kid_failed] using hd
      · simpa [make_kid_forked _ _ _ _ _ hf] using hd
  case done e => simpa [step] using h
  all_goals
    simp only [step, exec_pc]
    split_ifs <;> exact hd

theorem step_rank (s : Loop) (i : Input) (h : s.die_now ≠ 0) (hp : ∀ e, s.pc ≠ Pc.done e) :
    rank (step s i).1 < rank s := by
  have hd := deliver_ne_zero i.sigs s.die_now h
  obtain ⟨pc, ctx, d, fd, ret, ch⟩ := s
  cases pc
  case top => simp [step, exec_pc, hd, rank]
  case mine =>
    simp only [step, exec_pc]
    split_ifs <;> simp only [rank] <;> omega
  case cap =>
    simp only [step, exec_pc]
    split_ifs <;> simp only [rank] <;> omega
  case block =>
    simp only [step, exec_pc]
    split_ifs <;> simp only [rank] <;> omega
  case reap =>
    simp only [step, exec_pc]
    split_ifs with hw
    · obtain ⟨hpos, he⟩ := waitpid_pos ch i.r hw
      simp only [rank, he]
      omega
    · simp only [rank]; omega
  case wait =>
    simp only [step, exec_pc]
    split_ifs <;> simp only [rank] <;> omega
  case dispatch =>
    by_cases hr : ret = -1 ∨ ret = 0
    · simp [step, exec_pc, if_pos hr, rank]
    · simp only [step, exec_pc, if_neg hr]
      rcases fork_cases i.r with hf | hf | hf
      · simp [hf, make_kid_child, rank]
      · simp [hf, make_kid_failed, rank]
      · simp [make_kid_forked _ _ _ _ _ hf, rank]
  case done e => exact absurd rfl (hp e)

theorem rank_zero (s : Loop) (h : rank s = 0) : ∃ e, s.pc = Pc.done e := by
  obtain ⟨pc, ctx, d, fd, ret, ch⟩ := s
  cases pc <;> simp [rank] at h ⊢

theorem run_terminates (s : Loop) (h : s.die_now ≠ 0) (is : List Input)
    (hl : rank s ≤ is.length) : ∃ e, (run s is).1.pc = Pc.done e := by
  induction is generalizing s with
  | nil => exact rank_zero s (by simpa using hl)
  | cons i is ih =>
    by_cases hp : ∃ e, s.pc = Pc.done e
    · obtain ⟨e, he⟩ := hp
      exact ⟨e, by rw [run_done s e he]; exact he⟩
    · have hp2 : ∀ e, s.pc ≠ Pc.done e := fun e he => hp ⟨e, he⟩
      have h1 := step_rank s i h hp2
      have h2 := step_die_now s i h
      simp only [List.length_cons] at hl
      exact ih (step s i).1 h2 (by omega)

theorem step_budget (s : Loop) (i : Input) (h : s.die_now ≠ 0) :
    List.countP is_make_kid (step s i).2 + budget (step s i).1 ≤ budget s := by
  have hd := deliver_ne_zero i.sigs s.die_now h
  have hs := (countP_quiet _ (quiet_sigs i.sigs)).1
  obtain ⟨pc, ctx, d, fd, ret, ch⟩ := s
  cases pc
  case top => simp [step, exec_pc, hd, budget, List.countP_append, hs, is_make_kid]
  case mine =>
    have hm := (countP_quiet _ (quiet_is_socket_mine ctx i.sb)).1
    simp only [step, exec_pc]
    split_ifs <;> simp [budget, List.countP_append, hs, hm]
  case cap =>
    simp only [step, exec_pc]
    split_ifs <;> simp [budget, List.countP_append, hs]
  case block =>
    simp only [step, exec_pc]
    split_ifs <;> simp [budget, List.countP_append, hs, List.countP_cons, is_make_kid]
  case reap =>
    simp only [step, exec_pc]
    split_ifs <;> simp [budget, List.countP_append, hs, List.countP_cons, is_make_kid]
  case wait =>
    simp only [step, exec_pc]
    split_ifs <;> simp [budget, List.countP_append, hs, List.countP_cons, is_make_kid]
  case dispatch =>
    by_cases hr : ret = -1 ∨ ret = 0
    · simp [step, exec_pc, if_pos hr, budget, hs]
    · simp only [step, exec_pc, if_neg hr]
      rcases fork_cases i.r with hf | hf | hf
      · have hk := (countP_quiet _ (quiet_start_kid ctx fd i.fds i.exec_ok)).1
        simp [hf, make_kid_child, budget, List.countP_append, hs, List.countP_cons,
          is_make_kid, hk]
      · have hk := (countP_quiet _ (quiet_lnetd_log ctx LOG_ERR "fork failed: %s")).1
        simp [hf, make_kid_failed, budget, List.countP_append, hs, List.countP_cons,
          is_make_kid, hk]
      · simp [make_kid_forked _ _ _ _ _ hf, budget, List.countP_append, hs,
          List.countP_cons, is_make_kid]
  case done e => simp [step, budget]

theorem run_budget (s : Loop) (h : s.die_now ≠ 0) (is : List Input) :
    List.countP is_make_kid (run s is).2 ≤ budget s := by
  induction is generalizing s with
  | nil => simp [run]
  | cons i is ih =>
    have h1 := step_budget s i h
    have h2 := ih (step s i).1 (step_die_now s i h)
    simp only [run, List.countP_append]
    omega

theorem budget_le_one (s : Loop) : budget s ≤ 1 := by
  obtain ⟨pc, ctx, d, fd, ret, ch⟩ := s
  cases pc <;> simp [budget]

/-! ## The broadcast -/

theorem step_killpg_count (s : Loop) (i : Input) :
    List.countP is_killpg (step s i).2
      = if s.pc = Pc.top ∧ deliver i.sigs s.die_now ≠ 0 then 1 else 0 := by
  have hs := (countP_quiet _ (quiet_sigs i.sigs)).2
  obtain ⟨pc, ctx, d, fd, ret, ch⟩ := s
  cases pc
  case top =>
    simp only [step, exec_pc]
    split_ifs with h1 h2 h2 <;>
      simp_all [List.countP_append, hs, List.countP_cons, is_killpg]
  case mine =>
    have hm := (countP_quiet _ (quiet_is_socket_mine ctx i.sb)).2
    simp only [step, exec_pc]
    split_ifs <;> simp_all [List.countP_append, hs, hm]
  case cap =>
    simp only [step, exec_pc]
    split_ifs <;> simp_all [List.countP_append, hs]
  case block =>
    simp only [step, exec_pc]
    split_ifs <;> simp_all [List.countP_append, hs, List.countP_cons, is_killpg]
  case reap =>
    simp only [step, exec_pc]
    split_ifs <;> simp_all [List.countP_append, hs, List.countP_cons, is_killpg]
  case wait =>
    simp only [step, exec_pc]
    split_ifs <;> simp_all [List.countP_append, hs, List.countP_cons, is_killpg]
  case dispatch =>
    by_cases hr : ret = -1 ∨ ret = 0
    · simp [step, exec_pc, if_pos hr, hs]
    · simp only [step, exec_pc, if_neg hr]
      rcases fork_cases i.r with hf | hf | hf
      · have hk := (countP_quiet _ (quiet_start_kid ctx fd i.fds i.exec_ok)).2
        simp [hf, make_kid_child, List.countP_append, hs, List.countP_cons, is_killpg, hk]
      · have hk := (countP_quiet _ (quiet_lnetd_log ctx LOG_ERR "fork failed: %s")).2
        simp [hf, make_kid_failed, List.countP_append, hs, List.countP_cons, is_killpg, hk]
      · simp [make_kid_forked _ _ _ _ _ hf, List.countP_append, hs, List.countP_cons,
          is_killpg]
  case done e => simp [step]

theorem step_shutdown_iff (s : Loop) (i : Input) :
    (step s i).1.pc = Pc.done Exit.shutdown
      ↔ s.pc = Pc.done Exit.shutdown ∨ (s.pc = Pc.top ∧ deliver i.sigs s.die_now ≠ 0) := by
  obtain ⟨pc, ctx, d, fd, ret, ch⟩ := s
  cases pc
  case dispatch =>
    by_cases hr : ret = -1 ∨ ret = 0
    · simp [step, exec_pc, if_pos hr]
    · simp only [step, exec_pc, if_neg hr]
      rcases fork_cases i.r with hf | hf | hf
      · simp [hf, make_kid_child]
      · simp [hf, make_kid_failed]
      · simp [make_kid_forked _ _ _ _ _ hf]
  case done e => simp [step]
  all_goals
    simp only [step, exec_pc]
    split_ifs <;> simp_all

theorem step_killpg_which (s : Loop) (i : Input) :
    ∀ c ∈ (step s i).2, is_killpg c = true → c = Call.killpg 0 SIGHUP := by
  have hq : ∀ l : List Call, (∀ c ∈ l, quiet c) →
      ∀ c ∈ l, is_killpg c = true → c = Call.killpg 0 SIGHUP := by
    intro l hl c hc hk
    rw [(hl c hc).2] at hk
    exact absurd hk (by decide)
  have hs := hq _ (quiet_sigs i.sigs)
  intro c hc hk
  by_cases hcase : s.pc = Pc.top ∧ deliver i.sigs s.die_now ≠ 0
  · obtain ⟨pc, ctx, d, fd, ret, ch⟩ := s
    obtain ⟨hp, hdel⟩ := hcase
    simp only at hp hdel
    subst hp
    simp only [step, exec_pc, if_pos hdel, List.mem_append, List.mem_singleton] at hc
    rcases hc with hc | hc
    · exact hs c hc hk
    · exact hc
  · have h0 := step_killpg_count s i
    rw [if_neg hcase, List.countP_eq_zero] at h0
    exact absurd hk (h0 c hc)

theorem run_killpg_which (s : Loop) (is : List Input) :
    ∀ c ∈ (run s is).2, is_killpg c = true → c = Call.killpg 0 SIGHUP := by
  induction is generalizing s with
  | nil => simp [run]
  | cons i is ih =>
    intro c hc hk
    simp only [run, List.mem_append] at hc
    rcases hc with hc | hc
    · exact step_killpg_which s i c hc hk
    · exact ih _ c hc hk

theorem run_killpg_count (s : Loop) (hs : s.pc ≠ Pc.done Exit.shutdown) (is : List Input) :
    List.countP is_killpg (run s is).2
      = if (run s is).1.pc = Pc.done Exit.shutdown then 1 else 0 := by
  induction is generalizing s with
  | nil => simp [run, hs]
  | cons i is ih =>
    have hc := step_killpg_count s i
    have hi := step_shutdown_iff s i
    simp only [hs, false_or] at hi
    by_cases hx : (step s i).1.pc = Pc.done Exit.shutdown
    · rw [if_pos (hi.mp hx)] at hc
      simp only [run, run_done _ _ hx, List.append_nil, hc, if_pos hx]
    · rw [if_neg (fun h => hx (hi.mpr h))] at hc
      simp only [run, List.countP_append, hc, zero_add]
      exact ih _ hx

/-! ## Shutdown once the flag is set -/

/-- C6, the claim as stated fails.  In the first iteration of `demo_ctx`
the handler for `SIGTERM` runs after the shutdown check was passed
(`race_pre`): `die_now` is 1 and the loop stands at the capacity check.  The
iteration goes on (`race_post`): `accept` returns 5 and `make_kid` is called
with it, although `die_now` is already set. -/
theorem shutdown_race_still_spawns :
    (run (main_loop_init demo_ctx) race_pre).1.die_now = 1
    ∧ (run (main_loop_init demo_ctx) race_pre).1.pc = Pc.cap
    ∧ Call.make_kid 5 ∈ (run (run (main_loop_init demo_ctx) race_pre).1 race_post).2
    ∧ (run (main_loop_init demo_ctx) (race_pre ++ race_post)).2
        = [Call.sighndler SIGTERM, Call.stat "/tmp/s" 0, Call.waitpid (-1) WNOHANG 0,
           Call.alarm CHECK_TIME, Call.accept 3 5, Call.alarm 0, Call.make_kid 5,
           Call.fork 100] := by
  decide

theorem step_origin (s : Loop) (i : Input) (h : s.die_now ≠ 0) :
    (((step s i).1.pc = Pc.mine ∨ (step s i).1.pc = Pc.done Exit.not_mine) →
      (s.pc = Pc.mine ∨ s.pc = Pc.done Exit.not_mine))
    ∧ ((budget (step s i).1 = 1 ∨ (step s i).1.pc = Pc.done Exit.child) →
      (budget s = 1 ∨ s.pc = Pc.done Exit.child)) := by
  have hd := deliver_ne_zero i.sigs s.die_now h
  obtain ⟨pc, ctx, d, fd, ret, ch⟩ := s
  cases pc
  case top => simp [step, exec_pc, hd, budget]
  case dispatch =>
    by_cases hr : ret = -1 ∨ ret = 0
    · simp [step, exec_pc, if_pos hr, budget]
    · simp only [step, exec_pc, if_neg hr]
      rcases fork_cases i.r with hf | hf | hf
      · simp [hf, make_kid_child, budget]
      · simp [hf, make_kid_failed, budget]
      · simp [make_kid_forked _ _ _ _ _ hf, budget]
  case done e => simp [step]
  all_goals
    simp only [step, exec_pc]
    split_ifs <;> simp [budget]

theorem run_origin (s : Loop) (h : s.die_now ≠ 0) (is : List Input) :
    (((run s is).1.pc = Pc.mine ∨ (run s is).1.pc = Pc.done Exit.not_mine) →
      (s.pc = Pc.mine ∨ s.pc = Pc.done Exit.not_mine))
    ∧ ((budget (run s is).1 = 1 ∨ (run s is).1.pc = Pc.done Exit.child) →
      (budget s = 1 ∨ s.pc = Pc.done Exit.child)) := by
  induction is generalizing s with
  | nil => exact ⟨id, id⟩
  | cons i is ih =>
    obtain ⟨a1, b1⟩ := ih (step s i).1 (step_die_now s i h)
    obtain ⟨a2, b2⟩ := step_origin s i h
    exact ⟨fun x => a2 (a1 x), fun x => b2 (b1 x)⟩

/-- C6, amended.  From any state of `main_loop` in which `die_now` is set:
the flag stays set; at most one more call of `make_kid` is made, whatever
the inputs; if the loop stands at the shutdown check there is none at all
and the first step leaves the loop through the `killpg` branch.  After
`children + 6` steps at the latest the loop has been left: through the next
shutdown check; or before it through the identity check, which is only
possible when that check of the iteration in progress still lay ahead
(`Pc.mine`); or in the forked child, which is only possible when the
dispatch of the iteration in progress still lay ahead (`budget s = 1`).
The broadcast `killpg` is issued exactly when the loop is left through the
shutdown check. -/
theorem shutdown_after_flag (s : Loop) (hd : s.die_now ≠ 0) (is : List Input) :
    (run s is).1.die_now ≠ 0
    ∧ List.countP is_make_kid (run s is).2 ≤ 1
    ∧ (s.pc = Pc.top →
        List.countP is_make_kid (run s is).2 = 0
        ∧ (is ≠ [] → (run s is).1.pc = Pc.done Exit.shutdown))
    ∧ (s.children + 6 ≤ is.length →
        (run s is).1.pc = Pc.done Exit.shutdown
        ∨ ((run s is).1.pc = Pc.done Exit.not_mine
            ∧ (s.pc = Pc.mine ∨ s.pc = Pc.done Exit.not_mine))
        ∨ ((run s is).1.pc = Pc.done Exit.child
            ∧ (budget s = 1 ∨ s.pc = Pc.done Exit.child)))
    ∧ (s.pc ≠ Pc.done Exit.shutdown →
        List.countP is_killpg (run s is).2
          = if (run s is).1.pc = Pc.done Exit.shutdown then 1 else 0) := by
  refine ⟨?_, ?_, ?_, ?_, ?_⟩
  · clear * - hd
    induction is generalizing s with
    | nil => exact hd
    | cons i is ih => exact ih _ (step_die_now s i hd)
  · exact le_trans (run_budget s hd is) (budget_le_one s)
  · intro hp
    constructor
    · have := run_budget s hd is
      simp only [budget, hp] at this
      omega
    · intro hne
      obtain ⟨i, l, rfl⟩ := List.exists_cons_of_ne_nil hne
      have hdel := deliver_ne_zero i.sigs s.die_now hd
      have hstep : (step s i).1.pc = Pc.done Exit.shutdown := by
        obtain ⟨pc, ctx, d, fd, ret, ch⟩ := s
        simp only at hp
        subst hp
        simp [step, exec_pc, hdel]
      simp only [run]
      rw [run_done _ _ hstep]
      exact hstep
  · intro hl
    have hr : rank s ≤ s.children + 6 := by
      obtain ⟨pc, ctx, d, fd, ret, ch⟩ := s
      cases pc <;> simp only [rank] <;> omega
    obtain ⟨e, he⟩ := run_terminates s hd is (by omega)
    obtain ⟨ho1, ho2⟩ := run_origin s hd is
    cases e with
    | shutdown => exact Or.inl he
    | not_mine => exact Or.inr (Or.inl ⟨he, ho1 (Or.inr he)⟩)
    | child => exact Or.inr (Or.inr ⟨he, ho2 (Or.inr he)⟩)
  · intro hs
    exact run_killpg_count s hs is

/-- Witness for C6 (amended): the state after `race_pre`, run on through the
rest of the iteration and two more steps. -/
theorem shutdown_after_flag_witness :
    (run (main_loop_init demo_ctx) race_pre).1.die_now ≠ 0
    ∧ List.countP is_make_kid
        (run (run (main_loop_init demo_ctx) race_pre).1 (race_post ++ [calm 0, calm 0])).2 = 1
    ∧ ((run (run (main_loop_init demo_ctx) race_pre).1
          (race_post ++ [calm 0, calm 0])).1.pc = Pc.done Exit.shutdown
      ∨ ((run (run (main_loop_init demo_ctx) race_pre).1
            (race_post ++ [calm 0, calm 0])).1.pc = Pc.done Exit.not_mine
          ∧ ((run (main_loop_init demo_ctx) race_pre).1.pc = Pc.mine
            ∨ (run (main_loop_init demo_ctx) race_pre).1.pc = Pc.done Exit.not_mine))
      ∨ ((run (run (main_loop_init demo_ctx) race_pre).1
            (race_post ++ [calm 0, calm 0])).1.pc = Pc.done Exit.child
          ∧ (budget (run (main_loop_init demo_ctx) race_pre).1 = 1
            ∨ (run (main_loop_init demo_ctx) race_pre).1.pc = Pc.done Exit.child))) :=
  ⟨by decide, by decide,
    (shutdown_after_flag (run (main_loop_init demo_ctx) race_pre).1 (by decide)
      (race_post ++ [calm 0, calm 0])).2.2.2.1 (by decide)⟩

/-- The exit before the next shutdown check.  In the first iteration of
`demo_ctx` the handler for `SIGTERM` runs after the shutdown check and the
socket file is gone at the identity check (`race_gone`): the loop is left
through `is_socket_mine` with `die_now` set and without `killpg`. -/
theorem shutdown_flag_identity_exit :
    (run (main_loop_init demo_ctx) race_gone).1.pc = Pc.done Exit.not_mine
    ∧ (run (main_loop_init demo_ctx) race_gone).1.die_now = 1
    ∧ (run (main_loop_init demo_ctx) race_gone).2
        = [Call.sighndler SIGTERM, Call.stat "/tmp/s" (-1),
           Call.log LOG_ERR "stat(\"%s\", &sb2) failed: %s"] := by
  decide

/-- C9. Broadcast exactly on shutdown.  For every run of `main_loop`: the
call `killpg(0, SIGHUP)` occurs if and only if the loop was left through the
shutdown check, and then exactly once; a run that ends because
`is_socket_mine` returned 0 contains no `killpg`; the loop is left through
the shutdown check exactly from `Pc.top` with `die_now` set; and when
`die_now` is set at the shutdown check the broadcast is issued whatever
`is_socket_mine` would answer, `stat` not even being called. -/
theorem killpg_iff_shutdown (ctx : lnetd_ctx) (is : List Input) :
    (Call.killpg 0 SIGHUP ∈ (run (main_loop_init ctx) is).2
      ↔ (run (main_loop_init ctx) is).1.pc = Pc.done Exit.shutdown)
    ∧ List.countP is_killpg (run (main_loop_init ctx) is).2
        = (if (run (main_loop_init ctx) is).1.pc = Pc.done Exit.shutdown then 1 else 0)
    ∧ ((run (main_loop_init ctx) is).1.pc = Pc.done Exit.not_mine →
        ∀ c ∈ (run (main_loop_init ctx) is).2, is_killpg c = false)
    ∧ (∀ (s : Loop) (i : Input), s.pc ≠ Pc.done Exit.shutdown →
        ((step s i).1.pc = Pc.done Exit.shutdown
          ↔ s.pc = Pc.top ∧ deliver i.sigs s.die_now ≠ 0))
    ∧ (∀ (s : Loop) (i : Input), s.pc = Pc.top → deliver i.sigs s.die_now ≠ 0 →
        (is_socket_mine s.ctx i.sb).1 = 0 →
          (step s i).1.pc = Pc.done Exit.shutdown
          ∧ (step s i).2 = i.sigs.map Call.sighndler ++ [Call.killpg 0 SIGHUP]) := by
  have h0 : (main_loop_init ctx).pc ≠ Pc.done Exit.shutdown := by simp [main_loop_init]
  have hcount := run_killpg_count _ h0 is
  refine ⟨?_, hcount, ?_, ?_, ?_⟩
  · constructor
    · intro hm
      by_contra hne
      rw [if_neg hne, List.countP_eq_zero] at hcount
      exact absurd rfl (hcount _ hm)
    · intro hp
      rw [if_pos hp] at hcount
      have hpos : 0 < List.countP is_killpg (run (main_loop_init ctx) is).2 := by omega
      obtain ⟨c, hc, hk⟩ := List.countP_pos_iff.mp hpos
      have := run_killpg_which _ is c hc hk
      rw [← this]
      exact hc
  · intro hp c hc
    have hne : (run (main_loop_init ctx) is).1.pc ≠ Pc.done Exit.shutdown := by
      rw [hp]; decide
    rw [if_neg hne, List.countP_eq_zero] at hcount
    simpa using hcount c hc
  · intro s i hs
    have := step_shutdown_iff s i
    simpa [hs] using this
  · intro s i hp hdel _
    obtain ⟨pc, c, d, fd, ret, ch⟩ := s
    simp only at hp hdel
    subst hp
    simp [step, exec_pc, hdel]

/-- Witness for C9: at the first shutdown check of `demo_ctx`, `SIGHUP` has
been delivered and the socket file is gone as well (`hup_gone`); the loop
ends with the broadcast. -/
theorem killpg_iff_shutdown_witness :
    (main_loop_init demo_ctx).pc = Pc.top
    ∧ deliver hup_gone.sigs (main_loop_init demo_ctx).die_now ≠ 0
    ∧ (is_socket_mine (main_loop_init demo_ctx).ctx hup_gone.sb).1 = 0
    ∧ ((step (main_loop_init demo_ctx) hup_gone).1.pc = Pc.done Exit.shutdown
      ∧ (step (main_loop_init demo_ctx) hup_gone).2
          = hup_gone.sigs.map Call.sighndler ++ [Call.killpg 0 SIGHUP]) :=
  ⟨rfl, by decide, by decide,
    (killpg_iff_shutdown demo_ctx []).2.2.2.2 (main_loop_init demo_ctx) hup_gone rfl
      (by decide) (by decide)⟩

/-! ## The identity monitor -/

theorem step_ctx_identity (s : Loop) (i : Input) :
    (step s i).1.ctx.sock_dev = s.ctx.sock_dev ∧ (step s i).1.ctx.sock_ino = s.ctx.sock_ino
    ∧ (step s i).1.ctx.sockfn = s.ctx.sockfn := by
  obtain ⟨pc, ctx, d, fd, ret, ch⟩ := s
  cases pc
  case dispatch =>
    by_cases hr : ret = -1 ∨ ret = 0
    · simp [step, exec_pc, if_pos hr]
    · simp only [step, exec_pc, if_neg hr]
      rcases fork_cases i.r with hf | hf | hf
      · simp [hf, make_kid_child]
      · simp [hf, make_kid_failed]
      · simp [make_kid_forked _ _ _ _ _ hf]
  case done e => simp [step]
  all_goals
    simp only [step, exec_pc]
    split_ifs <;> simp

theorem run_ctx_identity (s : Loop) (is : List Input) :
    (run s is).1.ctx.sock_dev = s.ctx.sock_dev ∧ (run s is).1.ctx.sock_ino = s.ctx.sock_ino
    ∧ (run s is).1.ctx.sockfn = s.ctx.sockfn := by
  induction is generalizing s with
  | nil => simp [run]
  | cons i is ih =>
    obtain ⟨a, b, c⟩ := ih (step s i).1
    obtain ⟨a2, b2, c2⟩ := step_ctx_identity s i
    exact ⟨a.trans a2, b.trans b2, c.trans c2⟩

/-- C5. Identity monitor.  With `sb` the outcome of `stat(ctx->sockfn)`
(`none` when `stat` fails): `is_socket_mine` returns 1 exactly when `stat`
succeeded and both `st_dev` and `st_ino` equal the recorded `sock_dev` and
`sock_ino`; it returns 0 when `stat` failed and when either component
differs; the path handed to `stat` is `sockfn`; the step of `main_loop`
that calls it leaves the context as it was, and along every run of
`main_loop` the recorded identity and the path stay the ones at entry. -/
theorem is_socket_mine_contract (ctx : lnetd_ctx) (sb : Option stat_buf) :
    ((is_socket_mine ctx sb).1 = 1
      ↔ ∃ b, sb = some b ∧ b.st_dev = ctx.sock_dev ∧ b.st_ino = ctx.sock_ino)
    ∧ ((is_socket_mine ctx sb).1 = 0
      ↔ sb = none ∨ ∃ b, sb = some b ∧ (b.st_dev ≠ ctx.sock_dev ∨ b.st_ino ≠ ctx.sock_ino))
    ∧ (is_socket_mine ctx sb).2.head?
        = some (Call.stat ctx.sockfn (if sb.isSome = true then 0 else -1))
    ∧ (∀ (s : Loop) (i : Input), s.pc = Pc.mine → (step s i).1.ctx = s.ctx)
    ∧ (∀ is : List Input,
        (run (main_loop_init ctx) is).1.ctx.sock_dev = ctx.sock_dev
        ∧ (run (main_loop_init ctx) is).1.ctx.sock_ino = ctx.sock_ino
        ∧ (run (main_loop_init ctx) is).1.ctx.sockfn = ctx.sockfn) := by
  refine ⟨?_, ?_, ?_, ?_, ?_⟩
  · cases sb with
    | none => simp [is_socket_mine]
    | some b =>
      simp only [is_socket_mine]
      split_ifs with h
      · simp only [zero_ne_one, false_iff]
        rintro ⟨b2, hb, h1, h2⟩
        cases hb
        rcases h with h | h
        · exact h h1
        · exact h h2
      · simp only [true_iff]
        refine ⟨b, rfl, ?_, ?_⟩
        · by_contra hx; exact h (Or.inl hx)
        · by_contra hx; exact h (Or.inr hx)
  · cases sb with
    | none => simp [is_socket_mine]
    | some b =>
      simp only [is_socket_mine]
      split_ifs with h
      · simp only [true_iff]
        exact Or.inr ⟨b, rfl, h⟩
      · simp only [one_ne_zero, false_iff]
        rintro (hx | ⟨b2, hb, hx⟩)
        · cases hx
        · cases hb
          exact h hx
  · cases sb with
    | none => simp [is_socket_mine]
    | some b =>
      simp only [is_socket_mine, Option.isSome_some, if_true]
      split_ifs <;> simp
  · intro s i hp
    obtain ⟨pc, c, d, fd, ret, ch⟩ := s
    simp only at hp
    subst hp
    simp only [step, exec_pc]
    split_ifs <;> rfl
  · intro is
    exact run_ctx_identity (main_loop_init ctx) is

/-- Witness for C5: the identity check of the first iteration of `demo_ctx`
with the socket file in place. -/
theorem is_socket_mine_contract_witness :
    (run (main_loop_init demo_ctx) [calm 0]).1.pc = Pc.mine
    ∧ (is_socket_mine demo_ctx (calm 0).sb).1 = 1
    ∧ (step (run (main_loop_init demo_ctx) [calm 0]).1 (calm 0)).1.ctx
        = (run (main_loop_init demo_ctx) [calm 0]).1.ctx :=
  ⟨by decide, by decide,
    (is_socket_mine_contract demo_ctx (calm 0).sb).2.2.2.1
      (run (main_loop_init demo_ctx) [calm 0]).1 (calm 0) (by decide)⟩

/-! ## Spawning -/

/-- C8. Spawn result and recovery from a failed `fork`.  In the supervisor,
that is for every kernel answer `r` other than 0: `make_kid` returns 1 when
`fork` succeeded (`0 < r`) and 0 when it failed, after logging and
`sleep(1)`; it never returns anything but 0 or 1.  A dispatch step that
calls `make_kid` changes of the context only `num_kids`, by that value:
after a failed `fork` the context is unchanged and the loop is back at its
top, after a successful one `num_kids` is one more. -/
theorem make_kid_result (ctx : lnetd_ctx) (fd : Int) (r : Int) (t : FdTable) (x : Bool) :
    (0 < r → make_kid ctx fd (fork r) t x = Kid.parent 1 [Call.fork r])
    ∧ (r < 0 → make_kid ctx fd (fork r) t x
          = Kid.parent 0 ([Call.fork (-1)] ++ lnetd_log ctx LOG_ERR "fork failed: %s"
                            ++ [Call.sleep 1]))
    ∧ (∀ n calls, make_kid ctx fd (fork r) t x = Kid.parent n calls → n = 0 ∨ n = 1)
    ∧ (∀ (s : Loop) (i : Input), s.pc = Pc.dispatch → ¬ (s.ret = -1 ∨ s.ret = 0) →
        (i.r < 0 → (step s i).1.ctx = s.ctx ∧ (step s i).1.pc = Pc.top)
        ∧ (0 < i.r →
            (step s i).1.ctx = { s.ctx with num_kids := s.ctx.num_kids + 1 }
            ∧ (step s i).1.pc = Pc.top)) := by
  refine ⟨?_, ?_, ?_, ?_⟩
  · intro h
    have hf : fork r = r := by unfold fork; rw [if_neg (by omega)]
    rw [hf, make_kid_forked _ _ _ _ _ h]
  · intro h
    have hf : fork r = -1 := by unfold fork; rw [if_pos h]
    rw [hf, make_kid_failed]
  · intro n calls h
    rcases fork_cases r with hf | hf | hf
    · rw [hf, make_kid_child] at h
      cases h
    · rw [hf, make_kid_failed] at h
      cases h
      exact Or.inl rfl
    · rw [make_kid_forked _ _ _ _ _ hf] at h
      cases h
      exact Or.inr rfl
  · intro s i hp hr
    obtain ⟨pc, c, d, fd0, ret, ch⟩ := s
    simp only at hp hr
    subst hp
    constructor
    · intro h
      have hf : fork i.r = -1 := by unfold fork; rw [if_pos h]
      simp [step, exec_pc, if_neg hr, hf, make_kid_failed]
    · intro h
      have hf : fork i.r = i.r := by unfold fork; rw [if_neg (by omega)]
      simp [step, exec_pc, if_neg hr, hf, make_kid_forked _ _ _ _ _ h]

/-- Witness for C8: the dispatch step of `demo_ctx` after `accept` returned 5,
once with `fork` failing and once with `fork` returning 100. -/
theorem make_kid_result_witness :
    make_kid demo_ctx 5 (fork 100) demo_fds true = Kid.parent 1 [Call.fork 100]
    ∧ ((step (run (main_loop_init demo_ctx) [calm 0, calm 0, calm 0, calm 0, calm 5]).1
          (calm (-1))).1.ctx
        = (run (main_loop_init demo_ctx) [calm 0, calm 0, calm 0, calm 0, calm 5]).1.ctx
      ∧ (step (run (main_loop_init demo_ctx) [calm 0, calm 0, calm 0, calm 0, calm 5]).1
          (calm (-1))).1.pc = Pc.top) :=
  ⟨(make_kid_result demo_ctx 5 100 demo_fds true).1 (by decide),
   ((make_kid_result demo_ctx 5 100 demo_fds true).2.2.2
      (run (main_loop_init demo_ctx) [calm 0, calm 0, calm 0, calm 0, calm 5]).1 (calm (-1))
      (by decide) (by decide)).1 (by decide)⟩

/-! ## The child's descriptors -/

/-- What `start_kid` does for each kind of descriptor.  For `fd = 0` nothing
is rebound; for a valid `fd` other than 0 it is duplicated onto 0 and closed;
in both cases 0 is then duplicated onto 1 and 2 and `execv` is called.  For
an `fd` that is not a valid descriptor `dup2(fd, 0)` fails and the child
logs and leaves through `_exit(0)`: no `execv`. -/
theorem start_kid_cases (ctx : lnetd_ctx) (fd : Int) (t : FdTable) (x : Bool) :
    (fd = 0 → start_kid ctx fd t x = start_kid_exec ctx [] t x)
    ∧ (fd ≠ 0 → fd_open t fd = true →
        start_kid ctx fd t x
          = start_kid_exec ctx [Call.dup2 fd 0 0, Call.close fd]
              (close (fun k => if k = 0 then t fd else t k) fd) x)
    ∧ (fd ≠ 0 → fd_open t fd = false →
        (start_kid ctx fd t x).execd = false
        ∧ (start_kid ctx fd t x).calls
            = [Call.dup2 fd 0 (-1)] ++ lnetd_log ctx LOG_ERR "dup2 failed: %s"
                ++ [Call._exit 0]) := by
  refine ⟨?_, ?_, ?_⟩
  · intro h
    simp [start_kid, h]
  · intro h ho
    simp [start_kid, h, dup2, ho]
  · intro h ho
    simp [start_kid, h, dup2, ho]

theorem step_wait_mode (s : Loop) (i : Input) (hw : s.ctx.wait_service ≠ 0) (hf : s.fd = -1) :
    (step s i).1.ctx.wait_service ≠ 0 ∧ (step s i).1.fd = -1 := by
  obtain ⟨pc, ctx, d, fd, ret, ch⟩ := s
  simp only at hw hf
  cases pc
  case dispatch =>
    by_cases hr : ret = -1 ∨ ret = 0
    · simpa [step, exec_pc, if_pos hr] using ⟨hw, hf⟩
    · simp only [step, exec_pc, if_neg hr]
      rcases fork_cases i.r with hk | hk | hk
      · simpa [hk, make_kid_child] using ⟨hw, hf⟩
      · simpa [hk, make_kid_failed] using ⟨hw, hf⟩
      · simpa [make_kid_forked _ _ _ _ _ hk] using ⟨hw, hf⟩
  case wait => simpa [step, exec_pc, hw] using hf
  case done e => simpa [step] using ⟨hw, hf⟩
  all_goals
    simp only [step, exec_pc]
    split_ifs <;> exact ⟨hw, hf⟩

/-- In wait mode the local `fd` of `main_loop` is -1 throughout: `accept` is
never called, so every `make_kid` of a wait-mode run is handed -1. -/
theorem wait_mode_fd (ctx : lnetd_ctx) (hw : ctx.wait_service ≠ 0) (is : List Input) :
    (run (main_loop_init ctx) is).1.fd = -1 := by
  have key : ∀ (is : List Input) (s : Loop), s.ctx.wait_service ≠ 0 → s.fd = -1 →
      (run s is).1.fd = -1 := by
    intro is
    induction is with
    | nil => intro s _ hf; exact hf
    | cons i is ih =>
      intro s h1 h2
      obtain ⟨a, b⟩ := step_wait_mode s i h1 h2
      exact ih _ a b
  exact key is _ hw rfl

theorem fd_open_neg (t : FdTable) (fd : Int) (h : fd < 0) : fd_open t fd = false := by
  have : ¬ (0 ≤ fd) := by omega
  simp [fd_open, this]

/-- The child of a wait-mode spawn, whatever its descriptor table: handed
-1, `start_kid` fails in `dup2(-1, 0)` and leaves through `_exit(0)` without
calling `execv`. -/
theorem start_kid_sentinel (ctx : lnetd_ctx) (t : FdTable) (x : Bool) :
    (start_kid ctx (-1) t x).execd = false
    ∧ (start_kid ctx (-1) t x).calls
        = [Call.dup2 (-1) 0 (-1)] ++ lnetd_log ctx LOG_ERR "dup2 failed: %s"
            ++ [Call._exit 0] :=
  (start_kid_cases ctx (-1) t x).2.2 (by decide) (fd_open_neg t (-1) (by decide))

/-- C7, the code at the failing input.  In wait mode (`wait_ctx`) an
iteration whose `select` reports readiness calls `make_kid` with the
descriptor -1 that `fd` was initialised to; in the child `start_kid` calls
`dup2(-1, 0)`, which fails, logs `dup2 failed` and leaves through
`_exit(0)`.  Neither `dup2(0, 1)`, `dup2(0, 2)` nor `execv` is called. -/
theorem wait_mode_child_never_execs :
    (run (main_loop_init wait_ctx) wait_iteration).1.pc = Pc.done Exit.child
    ∧ (run (main_loop_init wait_ctx) wait_iteration).2
        = [Call.stat "/tmp/s" 0, Call.waitpid (-1) WNOHANG 0, Call.select 4 1,
           Call.make_kid (-1), Call.fork 0, Call.dup2 (-1) 0 (-1),
           Call.log LOG_ERR "dup2 failed: %s", Call._exit 0]
    ∧ (start_kid wait_ctx (-1) demo_fds true).execd = false := by
  decide

/-! ## The command line -/

/-- C2, the code at the failing input.  For `lnetd -w -N 5 /tmp/s /bin/cat`
the command line is accepted with `wait_service = 1` and `max_kids = 5`:
the later `-N` overwrites the 1 that `-w` stored.  With the two options in
the other order the result is `max_kids = 1`. -/
theorem wait_then_N_is_not_pinned :
    (lnetd_process_args no_db no_db ["lnetd", "-w", "-N", "5", "/tmp/s", "/bin/cat"]
      = Except.ok { fresh_ctx with wait_service := 1, max_kids := 5 })
    ∧ (lnetd_process_args no_db no_db ["lnetd", "-N", "5", "-w", "/tmp/s", "/bin/cat"]
      = Except.ok { fresh_ctx with wait_service := 1, max_kids := 1 }) :=
  ⟨rfl, rfl⟩

theorem chars_from_get (argv : List String) (k : Nat) (a : String) (h : argv.get? k = some a) :
    chars_from argv k = a.data.length + chars_from argv (k + 1) := by
  unfold chars_from
  induction argv generalizing k with
  | nil => simp at h
  | cons x xs ih =>
    cases k with
    | zero =>
      simp only [List.get?_cons_zero, Option.some.injEq] at h
      subst h
      simp
    | succ k =>
      simp only [List.get?_cons_succ] at h
      simpa using ih k h

theorem chars_from_succ_le (argv : List String) (k : Nat) :
    chars_from argv (k + 1) ≤ chars_from argv k := by
  cases h : argv.get? k with
  | none =>
    have hl : argv.length ≤ k := List.get?_eq_none.mp h
    simp [chars_from, List.drop_eq_nil_of_le hl, List.drop_eq_nil_of_le (Nat.le_succ_of_le hl)]
  | some a =>
    rw [chars_from_get argv k a h]
    omega

theorem getopt_char_left (argv : List String) (os : List Char) (g : Getopt) (c : Char)
    (rest : List Char) :
    opts_left argv (getopt_char argv os g c rest).2
      ≤ rest.length + chars_from argv (g.optind + 1) := by
  have h1 := chars_from_succ_le argv (g.optind + 1)
  unfold getopt_char
  cases rest with
  | nil =>
    cases opt_lookup os c with
    | none => simp [opts_left]
    | some b =>
      cases b with
      | false => simp [opts_left]
      | true =>
        simp only [if_true]
        cases argv.get? (g.optind + 1) with
        | none => simp [opts_left]
        | some a => simp only [opts_left, if_true, List.length_nil]; omega
  | cons r rs =>
    cases opt_lookup os c with
    | none => simp [opts_left]
    | some b =>
      cases b with
      | false => simp [opts_left]
      | true => simp [opts_left]

theorem getopt_left (argv : List String) (os : List Char) (g : Getopt) (ch : Char)
    (h : (getopt argv os g).1 = some ch) :
    opts_left argv (getopt argv os g).2 < opts_left argv g := by
  cases hn : g.nextchar with
  | cons c rest =>
    have hle := getopt_char_left argv os g c rest
    have e : getopt argv os g = getopt_char argv os g c rest := by
      simp only [getopt, hn]
    have hg : opts_left argv g = rest.length + 1 + chars_from argv (g.optind + 1) := by
      simp [opts_left, hn]
    rw [e, hg]
    omega
  | nil =>
    have hg0 : opts_left argv g = chars_from argv g.optind := by
      simp [opts_left, hn]
    cases ha : argv.get? g.optind with
    | none =>
      have e : getopt argv os g = (none, { g with optarg := none }) := by
        unfold getopt
        rw [hn]
        simp only
        rw [ha]
      rw [e] at h
      simp at h
    | some a =>
      have hg := chars_from_get argv g.optind a ha
      unfold getopt at h ⊢
      rw [hn] at h ⊢
      simp only at h ⊢
      rw [ha] at h ⊢
      simp only at h ⊢
      split at h
      · simp at h
      · rename_i _ c rest _ hd
        have hle := getopt_char_left argv os g c rest
        rw [hg0, hg, hd]
        simp only [List.length_cons]
        omega
      · simp at h

theorem process_opts_fuel_succ (gr pw : String → Option Nat) (argv : List String) (n : Nat)
    (g : Getopt) (ctx : lnetd_ctx) (h : opts_left argv g < n) :
    process_opts gr pw argv (n + 1) g ctx = process_opts gr pw argv n g ctx := by
  induction n generalizing g ctx with
  | zero => omega
  | succ n ih =>
    rw [process_opts, process_opts]
    cases hg : getopt argv OPTSTRING g with
    | mk o g1 =>
      cases o with
      | none => rfl
      | some ch =>
        have hl := getopt_left argv OPTSTRING g ch (by rw [hg])
        rw [hg] at hl
        have hlt : opts_left argv g1 < n := by simp only at hl; omega
        simp only
        split_ifs
        · exact ih _ _ hlt
        · exact ih _ _ hlt
        · cases parse_gid gr ctx (g1.optarg.getD "") with
          | error f => rfl
          | ok gid => exact ih _ _ hlt
        · exact ih _ _ hlt
        · cases parse_uid pw ctx (g1.optarg.getD "") with
          | error f => rfl
          | ok uid => exact ih _ _ hlt
        · exact ih _ _ hlt
        · rfl

/-- The fuel of `lnetd_process_args` is enough: the option loop ends by
`getopt` returning -1 or by `exit`, never by running out of rounds, so more
rounds change nothing. -/
theorem process_opts_fuel_enough (gr pw : String → Option Nat) (argv : List String) (k : Nat)
    (ctx : lnetd_ctx) :
    process_opts gr pw argv (argv_chars argv + 1 + k)
        { optind := 1, nextchar := [], optarg := none } ctx
      = process_opts gr pw argv (argv_chars argv + 1)
        { optind := 1, nextchar := [], optarg := none } ctx := by
  have h0 : opts_left argv { optind := 1, nextchar := [], optarg := none }
      < argv_chars argv + 1 := by
    have h1 : chars_from argv 1 ≤ chars_from argv 0 := chars_from_succ_le argv 0
    have e : chars_from argv 0 = argv_chars argv := by simp [chars_from, argv_chars]
    simp only [opts_left, if_true, List.length_nil]
    omega
  induction k with
  | zero => rfl
  | succ k ih =>
    rw [← ih]
    have hk : argv_chars argv + 1 + (k + 1) = (argv_chars argv + 1 + k) + 1 := by omega
    rw [hk]
    exact process_opts_fuel_succ gr pw argv _ _ ctx (by omega)

theorem getopt_char_ne_d (argv : List String) (g : Getopt) (c : Char) (rest : List Char) :
    (getopt_char argv OPTSTRING g c rest).1 ≠ some 'd' := by
  unfold getopt_char
  have hd : opt_lookup OPTSTRING 'd' = none := by decide
  cases h : opt_lookup OPTSTRING c with
  | none => simp only; decide
  | some b =>
    have hc : c ≠ 'd' := by
      intro hcd
      rw [hcd, hd] at h
      cases h
    cases b with
    | false => simpa using hc
    | true =>
      simp only
      split
      · simpa using hc
      · split
        · simp
        · simpa using hc

theorem getopt_ne_d (argv : List String) (g : Getopt) :
    (getopt argv OPTSTRING g).1 ≠ some 'd' := by
  unfold getopt
  split
  · exact getopt_char_ne_d _ _ _ _
  · split
    · simp
    · split
      · simp
      · exact getopt_char_ne_d _ _ _ _
      · simp

theorem process_opts_debug (gr pw : String → Option Nat) (argv : List String) (fuel : Nat)
    (g : Getopt) (ctx : lnetd_ctx) (r : lnetd_ctx × Getopt) (h0 : ctx.debug = 0)
    (h : process_opts gr pw argv fuel g ctx = Except.ok r) : r.1.debug = 0 := by
  induction fuel generalizing g ctx with
  | zero =>
    simp only [process_opts, Except.ok.injEq] at h
    rw [← h]; exact h0
  | succ n ih =>
    have hnd := getopt_ne_d argv g
    unfold process_opts at h
    split at h
    · simp only [Except.ok.injEq] at h
      rw [← h]; exact h0
    · rename_i ch g1 heq
      rw [heq] at hnd
      have hch : ch ≠ 'd' := by simpa using hnd
      simp only [hch, if_false] at h
      split_ifs at h
      · exact ih _ _ (by exact h0) h
      · split at h
        · exact ih _ _ (by exact h0) h
        · cases h
      · exact ih _ _ (by exact h0) h
      · split at h
        · exact ih _ _ (by exact h0) h
        · cases h
      · exact ih _ _ (by exact h0) h

/-- No command line makes `lnetd_process_args` return with `debug` set:
`getopt` never returns `d`, so every accepted configuration has `debug = 0`
and `vlog` drops every `LOG_DEBUG` line. -/
theorem debug_never_set (gr pw : String → Option Nat) (argv : List String) (ctx : lnetd_ctx)
    (h : lnetd_process_args gr pw argv = Except.ok ctx) :
    ctx.debug = 0 ∧ ∀ fmt, lnetd_log ctx LOG_DEBUG fmt = [] := by
  have hd : ctx.debug = 0 := by
    unfold lnetd_process_args at h
    split at h
    · cases h
    · rename_i c g heq
      have := process_opts_debug gr pw argv _ _ _ _ rfl heq
      split_ifs at h
      cases h
      exact this
  exact ⟨hd, fun fmt => by simp [lnetd_log, vlog, hd]⟩

/-- C10, the code at the failing input.  For `lnetd -d /tmp/s /bin/cat`
the option string has no `d`, so `getopt` returns `?` and
`lnetd_process_args` ends in `lnetd_usage`: the usage line is logged and the
process exits with status 1.  It does not return with `debug = 1`. -/
theorem debug_option_is_rejected :
    getopt ["lnetd", "-d", "/tmp/s", "/bin/cat"] OPTSTRING
        { optind := 1, nextchar := [], optarg := none }
      = (some '?', { optind := 2, nextchar := [], optarg := none })
    ∧ lnetd_process_args no_db no_db ["lnetd", "-d", "/tmp/s", "/bin/cat"]
      = Except.error
          { status := 1,
            calls := [Call.log LOG_ERR "usage: %s [-dw] [-N max_kids] command [args]"] } :=
  ⟨rfl, rfl⟩

/-! ## The provisioner -/

theorem tmppath_ne (p : String) : p ++ "X" ≠ p := by
  intro h
  have := congrArg String.length h
  simp only [String.length_append] at this
  have hx : "X".length = 1 := by decide
  omega

theorem take_bytes_all (l : List Char) (n : Nat) (h : (l.map Char.utf8Size).sum ≤ n) :
    take_bytes n l = l := by
  induction l generalizing n with
  | nil => rfl
  | cons c cs ih =>
    simp only [List.map_cons, List.sum_cons] at h
    have hc : c.utf8Size ≤ n := by omega
    simp only [take_bytes, if_pos hc]
    rw [ih (n - c.utf8Size) (by omega)]

theorem take_bytes_le (l : List Char) (n : Nat) :
    ((take_bytes n l).map Char.utf8Size).sum ≤ n := by
  induction l generalizing n with
  | nil => simp [take_bytes]
  | cons c cs ih =>
    simp only [take_bytes]
    split_ifs with hc
    · have := ih (n - c.utf8Size)
      simp only [List.map_cons, List.sum_cons]
      omega
    · simp

theorem sun_path_fits (p : String) (h : path_bytes p ≤ SUN_PATH_MAX) : sun_path p = p := by
  unfold sun_path
  rw [take_bytes_all p.data SUN_PATH_MAX h]

theorem sun_path_long (p : String) (h : SUN_PATH_MAX < path_bytes p) : p ≠ sun_path p := by
  intro he
  have hle : path_bytes (sun_path p) ≤ SUN_PATH_MAX := take_bytes_le p.data SUN_PATH_MAX
  rw [← he] at hle
  omega

theorem drop_setid_low (a b : Bool) (m : Nat) :
    drop_setid a b m % 1024 = m % 1024 ∧ (m < 1024 → drop_setid a b m = m) := by
  unfold drop_setid
  constructor
  · split_ifs <;> omega
  · intro h
    have h1 : m / 1024 = 0 := by omega
    have h2 : m / 2048 = 0 := by omega
    simp only [h1, h2]
    split_ifs <;> omega

/-- The provisioner's postcondition when `stat` succeeds and the temporary
path fits into `sun_path`.  If `setup_socket` returns a descriptor, then it
is the one `socket` gave; the file at `sockfn` has the identity recorded in
`sock_dev` and `sock_ino`, the configured owner and group (those of the new
socket file where the configured id is `(uid_t)-1`), and the mode that
`chmod` stored less the set-id bits `chown` cleared, so its nine permission
bits and sticky bit are those of `sockmode`; and `is_socket_mine` called
right afterwards returns 1. -/
theorem setup_socket_post (ctx : lnetd_ctx) (fs : Fs) (e : SockEnv) (hs : e.stat_ok = true)
    (hfit : path_bytes (ctx.sockfn ++ "X") ≤ SUN_PATH_MAX)
    (hr : (setup_socket ctx fs e).ret ≠ -1) :
    (setup_socket ctx fs e).ret = e.socket_ret
    ∧ (setup_socket ctx fs e).fs ctx.sockfn
        = some { dev := (setup_socket ctx fs e).ctx.sock_dev,
                 ino := (setup_socket ctx fs e).ctx.sock_ino,
                 mode := drop_setid e.clear_suid e.clear_sgid (ctx.sockmode % 4096),
                 uid := if ctx.sockuid = NO_ID then e.node.uid else ctx.sockuid,
                 gid := if ctx.sockgid = NO_ID then e.node.gid else ctx.sockgid }
    ∧ drop_setid e.clear_suid e.clear_sgid (ctx.sockmode % 4096) % 1024
        = ctx.sockmode % 1024
    ∧ (ctx.sockmode % 4096 < 1024 →
        drop_setid e.clear_suid e.clear_sgid (ctx.sockmode % 4096) = ctx.sockmode % 4096)
    ∧ (is_socket_mine (setup_socket ctx fs e).ctx
        (sys_stat (setup_socket ctx fs e).fs true (setup_socket ctx fs e).ctx.sockfn)).1 = 1 := by
  have hne := tmppath_ne ctx.sockfn
  have hne2 : ctx.sockfn ≠ ctx.sockfn ++ "X" := fun h => hne h.symm
  have hsun := sun_path_fits _ hfit
  have hlow := drop_setid_low e.clear_suid e.clear_sgid (ctx.sockmode % 4096)
  have hmod : ctx.sockmode % 4096 % 1024 = ctx.sockmode % 1024 := by omega
  refine ⟨?_, ?_, hlow.1.trans hmod, hlow.2, ?_⟩
  all_goals
    by_cases hm : e.malloc_ok = true
    swap
    · simp [setup_socket, hm] at hr
    by_cases hsock : e.socket_ret = -1
    · simp [setup_socket, hm, hsock] at hr
    by_cases hb : e.bind_ok = true ∧ fs (ctx.sockfn ++ "X") = none
    swap
    · simp [setup_socket, hm, hsock, hsun, sys_bind, hb, setup_done] at hr
    by_cases hc : e.chmod_ok = true
    swap
    · simp [setup_socket, hm, hsock, hsun, sys_bind, hb, setup_done, sys_chmod, Fs.set,
        hc] at hr
    by_cases ho : e.chown_ok = true
    swap
    · simp [setup_socket, hm, hsock, hsun, sys_bind, hb, setup_done, sys_chmod, Fs.set, hc,
        sys_chown, ho] at hr
    by_cases hn : e.rename_ok = true
    swap
    · simp [setup_socket, hm, hsock, hsun, sys_bind, hb, setup_done, sys_chmod, Fs.set, hc,
        sys_chown, ho, sys_rename, hn] at hr
    by_cases hl : e.listen_ok = true
    swap
    · simp [setup_socket, hm, hsock, hsun, sys_bind, hb, setup_done, sys_chmod, Fs.set, hc,
        sys_chown, ho, sys_rename, hn, hl] at hr
    simp [setup_socket, hm, hsock, hsun, sys_bind, hb, setup_done, sys_chmod, Fs.set, hc,
        sys_chown, ho, sys_rename, hn, hl, hs, sys_stat, hne, hne2, is_socket_mine]

/-- A socket path too long for `sun_path`.  When the temporary path needs
more than `SUN_PATH_MAX` bytes and no file of that name exists, the socket
is bound under the truncated name, `chmod` of the temporary path fails, and
`setup_socket` returns -1. -/
theorem setup_socket_long_path (ctx : lnetd_ctx) (fs : Fs) (e : SockEnv)
    (hlong : SUN_PATH_MAX < path_bytes (ctx.sockfn ++ "X"))
    (hfree : fs (ctx.sockfn ++ "X") = none) :
    (setup_socket ctx fs e).ret = -1 := by
  have hne := sun_path_long _ hlong
  by_cases hm : e.malloc_ok = true
  swap
  · simp [setup_socket, hm]
  by_cases hsock : e.socket_ret = -1
  · simp [setup_socket, hm, hsock]
  by_cases hb : e.bind_ok = true ∧ fs (sun_path (ctx.sockfn ++ "X")) = none
  swap
  · simp [setup_socket, hm, hsock, sys_bind, hb, setup_done]
  simp [setup_socket, hm, hsock, sys_bind, hb, setup_done, sys_chmod, Fs.set, hne, hfree]

/-- Whenever `stat` is the only call that fails, on a file system where the
temporary name fits into `sun_path` and is free, `setup_socket` returns the
descriptor that `socket` gave and records the junk of the uninitialised
`struct stat`. -/
theorem setup_socket_stat_failure (ctx : lnetd_ctx) (fs : Fs) (e : SockEnv)
    (hfit : path_bytes (ctx.sockfn ++ "X") ≤ SUN_PATH_MAX)
    (hm : e.malloc_ok = true) (hsock : e.socket_ret ≠ -1) (hb : e.bind_ok = true)
    (hfree : fs (ctx.sockfn ++ "X") = none) (hs : e.stat_ok = false)
    (hc : e.chmod_ok = true) (ho : e.chown_ok = true) (hn : e.rename_ok = true)
    (hl : e.listen_ok = true) :
    (setup_socket ctx fs e).ret = e.socket_ret
    ∧ (setup_socket ctx fs e).ctx.sock_dev = e.junk.st_dev
    ∧ (setup_socket ctx fs e).ctx.sock_ino = e.junk.st_ino := by
  have hsun := sun_path_fits _ hfit
  simp [setup_socket, hm, hsock, hsun, sys_bind, hb, hfree, setup_done, sys_chmod, Fs.set, hc,
    sys_chown, ho, sys_rename, hn, hl, hs, sys_stat]

/-- C3, the code at the failing input.  On an empty file system, with every
call succeeding except `stat` (`stat_fails`), `setup_socket` logs
`can't stat tmppath`, goes on with `chmod`, `chown`, `rename` and `listen`,
and returns the descriptor 3, not -1; the recorded identity is what the
uninitialised `struct stat` held. -/
theorem setup_socket_ignores_stat_failure :
    (setup_socket fresh_ctx empty_fs stat_fails).ret = 3
    ∧ (setup_socket fresh_ctx empty_fs stat_fails).calls
        = [Call.malloc true, Call.socket 3, Call.umask 0, Call.bind 3 "/tmp/sX" 0,
           Call.umask 0o22, Call.stat "/tmp/sX" (-1),
           Call.log LOG_ERR "can't stat tmppath: %s",
           Call.chmod "/tmp/sX" 0o666 0, Call.chown "/tmp/sX" NO_ID NO_ID 0,
           Call.rename "/tmp/sX" "/tmp/s" 0, Call.listen 3 15 0]
    ∧ (setup_socket fresh_ctx empty_fs stat_fails).ctx.sock_dev = stat_fails.junk.st_dev
    ∧ (setup_socket fresh_ctx empty_fs stat_fails).ctx.sock_ino = stat_fails.junk.st_ino := by
  decide

/-- C4, the code at the failing input.  In the same run `setup_socket`
returns the descriptor 3 while the file now at `/tmp/s` is inode 77 of
device 2049 and the recorded identity is (0, 0); `is_socket_mine` called
right afterwards, with `stat` succeeding, returns 0. -/
theorem setup_socket_identity_not_recorded :
    (setup_socket fresh_ctx empty_fs stat_fails).ret = 3
    ∧ (setup_socket fresh_ctx empty_fs stat_fails).fs "/tmp/s"
        = some { dev := 2049, ino := 77, mode := 0o666, uid := 0, gid := 0 }
    ∧ ((setup_socket fresh_ctx empty_fs stat_fails).ctx.sock_dev,
       (setup_socket fresh_ctx empty_fs stat_fails).ctx.sock_ino) = (0, 0)
    ∧ (is_socket_mine (setup_socket fresh_ctx empty_fs stat_fails).ctx
        (sys_stat (setup_socket fresh_ctx empty_fs stat_fails).fs true
          (setup_socket fresh_ctx empty_fs stat_fails).ctx.sockfn)).1 = 0 := by
  decide

end Lnetd
